import Mathlib

/-! # Word-search game: grid placement and grid search

A shallow embedding of `GameMode::populateGrid`,
`WordValidator::checkWordInGrid`, `WordValidator::isValidWord`, the insertion
loop of `ScoreTracker::compareAndUpdateScores` and the guess step of
`Game::startGame` (`src/Implementation.cpp`), followed by the theorems that
settle the specification claims about them.

Modelling conventions:

* a `std::string` is the list of its characters;
* the grid memory `char** grid` is a map from (row, column) to a character;
  the code only ever touches rows and columns in `[0, gridSize)`;
* C `int` values are unbounded integers: the game works with grid sizes
  10, 15, 20 and words of at most a few dozen characters, far from `2^31`;
* `rand()` is a stream `rand : Nat → Nat` of non-negative draws together with
  the number of draws made so far;
* the `while` loop of `populateGrid` runs on fuel, one unit per iteration.
-/

namespace WordGame

/-! ## Data model -/

/-- A word: the characters of a `std::string`. -/
abbrev Word := List Char

/-- The grid memory: the character stored at (row, column). -/
abbrev Grid := Int → Int → Char

/-- Number of search directions (`header.h`). -/
def NUM_DIRECTIONS : Nat := 8

/-- Capacity of the fixed word arrays (`header.h`). -/
def MAX_WORDS : Nat := 100

/-- The blank sentinel written by `populateGrid` before placement. -/
def blank : Char := ' '

/-- The marker written by `checkWordInGrid` over a matched span. -/
def consumed : Char := '*'

/-- The function `std::tolower` in the C locale: `A`..`Z` go to `a`..`z`,
every other character is returned as it is. -/
def tolower (c : Char) : Char := c.toLower

/-- The assignment `grid[r][c] = ch`. -/
def setCell (grid : Grid) (r c : Int) (ch : Char) : Grid :=
  fun a b => if a = r ∧ b = c then ch else grid a b

/-- The character `word[k]` (`'\0'` at `k = word.length()`). -/
def charAt (word : Word) (k : Nat) : Char := word.getD k (Char.ofNat 0)

/-- The test `0 <= r < gridSize && 0 <= c < gridSize`. -/
def inGrid (gridSize : Nat) (r c : Int) : Bool :=
  decide (0 ≤ r) && decide (r < gridSize) && decide (0 ≤ c) && decide (c < gridSize)

/-! ## `WordValidator::checkWordInGrid` -/

/-- The `switch (d)` that moves `(i2, j2)` one cell along direction `d`. -/
def advance (d : Nat) (i2 j2 : Int) : Int × Int :=
  match d with
  | 0 => (i2, j2 + 1)
  | 1 => (i2, j2 - 1)
  | 2 => (i2 + 1, j2)
  | 3 => (i2 - 1, j2)
  | 4 => (i2 + 1, j2 + 1)
  | 5 => (i2 - 1, j2 + 1)
  | 6 => (i2 + 1, j2 - 1)
  | 7 => (i2 - 1, j2 - 1)
  | _ => (i2, j2)

/-- The direction-specific bound check at the head of the `d` loop: `true`
when the candidate is skipped with `continue`. -/
def boundsSkip (d : Nat) (i j wordLen gridSize : Int) : Bool :=
  (d == 0 && decide (j + wordLen > gridSize)) ||
  (d == 1 && decide (j - wordLen + 1 < 0)) ||
  (d == 2 && decide (i + wordLen > gridSize)) ||
  (d == 3 && decide (i - wordLen + 1 < 0)) ||
  (d == 4 && (decide (i + wordLen > gridSize) || decide (j + wordLen > gridSize))) ||
  (d == 5 && (decide (i - wordLen + 1 < 0) || decide (j + wordLen > gridSize))) ||
  (d == 6 && (decide (i + wordLen > gridSize) || decide (j - wordLen + 1 < 0))) ||
  (d == 7 && (decide (i - wordLen + 1 < 0) || decide (j - wordLen + 1 < 0)))

/-- The comparison loop over `k`: the remaining characters of the word are
compared, lower-cased, with the cells from `(i2, j2)` on along `d`; the value
is the final `match` flag. -/
def matchLoop (grid : Grid) (d : Nat) : Word → Int → Int → Bool
  | [], _, _ => true
  | ch :: rest, i2, j2 =>
    if tolower ch != tolower (grid i2 j2) then false
    else matchLoop grid d rest (advance d i2 j2).1 (advance d i2 j2).2

/-- The marking loop: `n` cells from `(i2, j2)` on along `d` receive `'*'`. -/
def markLoop (d : Nat) : Nat → Grid → Int → Int → Grid
  | 0, grid, _, _ => grid
  | n + 1, grid, i2, j2 =>
    markLoop d n (setCell grid i2 j2 consumed) (advance d i2 j2).1 (advance d i2 j2).2

/-- The body of the `d` loop for origin `(i, j)`: `some` of the marked grid
when the function returns `true` here, `none` when the loop goes on. -/
def tryDirection (word : Word) (grid : Grid) (gridSize : Nat) (i j d : Nat) : Option Grid :=
  if boundsSkip d i j word.length gridSize then none
  else if matchLoop grid d word i j then some (markLoop d word.length grid i j)
  else none

/-- The three nested `for` loops with their early `return true`: the first
candidate, in the order of the loops, on which the body returns. -/
def scan (word : Word) (grid : Grid) (gridSize : Nat) : Option Grid :=
  (List.range gridSize).findSome? fun i =>
    (List.range gridSize).findSome? fun j =>
      (List.range NUM_DIRECTIONS).findSome? fun d =>
        tryDirection word grid gridSize i j d

/-- The function `checkWordInGrid`: the returned boolean and the grid memory
after the call. -/
def checkWordInGrid (word : Word) (grid : Grid) (gridSize : Nat) : Bool × Grid :=
  match scan word grid gridSize with
  | some marked => (true, marked)
  | none => (false, grid)

/-! ## `GameMode::populateGrid` -/

/-- The `switch (direction)` of `populateGrid`: the cell of character `k` of
a word starting at `(row, col)`. -/
def cellAt (direction : Nat) (row col : Int) (k : Nat) : Int × Int :=
  match direction with
  | 0 => (row, col + k)
  | 1 => (row, col - k)
  | 2 => (row + k, col)
  | 3 => (row - k, col)
  | 4 => (row + k, col + k)
  | 5 => (row - k, col + k)
  | 6 => (row + k, col - k)
  | 7 => (row - k, col - k)
  | _ => (row, col)

/-- One iteration of the `canPlace` loop: the cell of character `k` is inside
the grid and is blank or already holds `word[k]`. -/
def cellFree (grid : Grid) (gridSize : Nat) (word : Word) (row col : Int)
    (direction k : Nat) : Bool :=
  inGrid gridSize (cellAt direction row col k).1 (cellAt direction row col k).2 &&
    (grid (cellAt direction row col k).1 (cellAt direction row col k).2 == blank ||
      grid (cellAt direction row col k).1 (cellAt direction row col k).2 == charAt word k)

/-- The `canPlace` loop: no iteration `k < targetWordLength` cleared the flag. -/
def canPlace (grid : Grid) (gridSize : Nat) (word : Word) (row col : Int)
    (direction targetWordLength : Nat) : Bool :=
  (List.range targetWordLength).all fun k => cellFree grid gridSize word row col direction k

/-- The writing loop: `grid[newRow][newCol] = word[k]` for `k < targetWordLength`. -/
def writeWord (grid : Grid) (word : Word) (row col : Int)
    (direction targetWordLength : Nat) : Grid :=
  (List.range targetWordLength).foldl
    (fun g k => setCell g (cellAt direction row col k).1 (cellAt direction row col k).2
      (charAt word k)) grid

/-- Where a word was written; the code keeps only the word (in
`placedWordsList`), the origin and direction are recorded here so that the
span properties can be stated. -/
structure Placement where
  word : Word
  row : Int
  col : Int
  direction : Nat

/-- The local variables of `populateGrid`, the grid and the position in the
stream of `rand()` draws. -/
structure PlaceState where
  grid : Grid
  placedWords : Nat
  maxAttempts : Nat
  placedWordsList : List Word
  draws : Nat
  placements : List Placement

/-- How a run of `populateGrid` can fail to return. -/
inductive Fault where
  | outOfFuel
  | divisionByZero
  | outOfRange
  deriving DecidableEq, Repr

/-- The guard of the placement loop. -/
def loopCond (targetWordCount : Nat) (s : PlaceState) : Bool :=
  decide (s.placedWords < targetWordCount) && decide (s.maxAttempts > 0)

/-- One iteration of the placement loop. The two `continue` statements leave
the iteration before `--maxAttempts`. -/
def loopBody (rand : Nat → Nat) (words : List Word)
    (totalWords gridSize targetWordLength : Nat) (s : PlaceState) : Except Fault PlaceState :=
  if totalWords = 0 then .error .divisionByZero
  else
    match words[rand s.draws % totalWords]? with
    | none => .error .outOfRange
    | some word =>
      if word.length ≠ targetWordLength then .ok { s with draws := s.draws + 1 }
      else if s.placedWordsList.any (fun placed => placed == word) then
        .ok { s with draws := s.draws + 1 }
      else if gridSize = 0 then .error .divisionByZero
      else
        let row : Int := (rand (s.draws + 1) % gridSize : Nat)
        let col : Int := (rand (s.draws + 2) % gridSize : Nat)
        let direction := rand (s.draws + 3) % NUM_DIRECTIONS
        if canPlace s.grid gridSize word row col direction targetWordLength then
          if MAX_WORDS ≤ s.placedWordsList.length then .error .outOfRange
          else
            .ok { grid := writeWord s.grid word row col direction targetWordLength
                  placedWords := s.placedWords + 1
                  maxAttempts := s.maxAttempts - 1
                  placedWordsList := s.placedWordsList ++ [word]
                  draws := s.draws + 4
                  placements := s.placements ++ [⟨word, row, col, direction⟩] }
        else .ok { s with maxAttempts := s.maxAttempts - 1, draws := s.draws + 4 }

/-- The placement loop, one unit of fuel per iteration. -/
def placeLoop (rand : Nat → Nat) (words : List Word)
    (totalWords gridSize targetWordCount targetWordLength : Nat) :
    Nat → PlaceState → Except Fault PlaceState
  | 0, s => if loopCond targetWordCount s then .error .outOfFuel else .ok s
  | fuel + 1, s =>
    if loopCond targetWordCount s then
      match loopBody rand words totalWords gridSize targetWordLength s with
      | .ok s' => placeLoop rand words totalWords gridSize targetWordCount targetWordLength fuel s'
      | .error e => .error e
    else .ok s

/-- The clearing loops: every cell of the grid receives the blank. -/
def blankGrid (grid : Grid) (gridSize : Nat) : Grid :=
  (List.range gridSize).foldl
    (fun (g : Grid) (i : Nat) =>
      (List.range gridSize).foldl (fun (g : Grid) (j : Nat) => setCell g i j blank) g) grid

/-- The body of the fill loops at `(i, j)`: a blank cell receives
`'a' + rand() % 26`. -/
def fillCell (rand : Nat → Nat) (st : Grid × Nat) (i j : Nat) : Grid × Nat :=
  if st.1 i j = blank then
    (setCell st.1 i j (Char.ofNat ('a'.toNat + rand st.2 % 26)), st.2 + 1)
  else st

/-- The fill loops, row-major, threading the number of draws made. -/
def fillGrid (rand : Nat → Nat) (gridSize : Nat) (st : Grid × Nat) : Grid × Nat :=
  (List.range gridSize).foldl
    (fun st i => (List.range gridSize).foldl (fun st j => fillCell rand st i j) st) st

/-- The initial values of the locals, on the cleared grid. -/
def initState (grid : Grid) (gridSize targetWordCount : Nat) : PlaceState :=
  { grid := blankGrid grid gridSize
    placedWords := 0
    maxAttempts := 100 * targetWordCount
    placedWordsList := []
    draws := 0
    placements := [] }

/-- The function `populateGrid`: clear, place, fill. -/
def populateGrid (rand : Nat → Nat) (fuel : Nat) (grid : Grid) (gridSize : Nat)
    (words : List Word) (totalWords targetWordCount targetWordLength : Nat) :
    Except Fault PlaceState :=
  match placeLoop rand words totalWords gridSize targetWordCount targetWordLength fuel
      (initState grid gridSize targetWordCount) with
  | .error e => .error e
  | .ok s =>
    .ok { s with
          grid := (fillGrid rand gridSize (s.grid, s.draws)).1
          draws := (fillGrid rand gridSize (s.grid, s.draws)).2 }

/-! ## `WordValidator::isValidWord` -/

/-- A `std::string` array: the word stored at each index. -/
abbrev WordArray := Nat → Word

/-- The function `isValidWord`: the loop returns `true` at the first index
below `dictionarySize` whose entry equals the word, and `false` after the last
index. -/
def isValidWord (word : Word) (dictionary : WordArray) (dictionarySize : Nat) : Bool :=
  (List.range dictionarySize).any fun i => dictionary i == word

/-! ## `ScoreTracker` -/

/-- The function `updateScore`. -/
def updateScore (score : Int) (correctGuess : Bool) : Int :=
  if correctGuess then score + 10 else score

/-- The inner loop of `compareAndUpdateScores`, from index `j` downwards:
`topScores[j] = topScores[j - 1]` while `j > i`. -/
def shiftLoop (i : Nat) : Nat → List Int → List Int
  | 0, topScores => topScores
  | j + 1, topScores =>
    if j + 1 > i then shiftLoop i j (topScores.set (j + 1) (topScores.getD j 0))
    else topScores

/-- The outer loop of `compareAndUpdateScores` at index `i` with `n`
iterations left: the first `i` with `score > topScores[i]` shifts the lower
entries, stores the score and leaves the loop. -/
def insertLoop (score : Int) : Nat → Nat → List Int → List Int
  | _, 0, topScores => topScores
  | i, n + 1, topScores =>
    if score > topScores.getD i 0 then (shiftLoop i 4 topScores).set i score
    else insertLoop score (i + 1) n topScores

/-- The insertion loop of `compareAndUpdateScores`: `topScores` is the array
of 5 entries that `loadScores` has filled, the value is the array handed to
`saveScores`. -/
def compareAndUpdateScores (score : Int) (topScores : List Int) : List Int :=
  insertLoop score 0 5 topScores

/-! ## The guess step of `Game::startGame` -/

/-- The variables of `startGame` that one guess can change. -/
structure GuessState where
  grid : Grid
  totalChances : Int
  successfulGuesses : Nat
  guessedWords : List Word
  score : Int

/-- One iteration of the guessing loop of `startGame` on the line `guess`:
length check, repeated-guess check, then the search in the grid and, only
after a successful search, the dictionary lookup. -/
def guessStep (dictionary : WordArray) (dictionarySize gridSize wordLength : Nat)
    (guess : Word) (g : GuessState) : GuessState :=
  if guess.length ≠ wordLength then { g with totalChances := g.totalChances - 1 }
  else if g.guessedWords.any (fun w => w == guess) then
    { g with totalChances := g.totalChances - 1 }
  else if (checkWordInGrid guess g.grid gridSize).1 then
    if !isValidWord guess dictionary dictionarySize then
      { g with
        grid := (checkWordInGrid guess g.grid gridSize).2
        totalChances := g.totalChances - 1 }
    else
      { g with
        grid := (checkWordInGrid guess g.grid gridSize).2
        successfulGuesses := g.successfulGuesses + 1
        guessedWords := g.guessedWords ++ [guess]
        score := updateScore g.score true }
  else
    { g with
      grid := (checkWordInGrid guess g.grid gridSize).2
      totalChances := g.totalChances - 1
      score := updateScore g.score false }

/-! ## Vocabulary of the specification -/

/-- The unit vector of a direction, in the canonical order right, left, down,
up, down-right, up-right, down-left, up-left. -/
def delta (d : Nat) : Int × Int :=
  match d with
  | 0 => (0, 1)
  | 1 => (0, -1)
  | 2 => (1, 0)
  | 3 => (-1, 0)
  | 4 => (1, 1)
  | 5 => (-1, 1)
  | 6 => (1, -1)
  | 7 => (-1, -1)
  | _ => (0, 0)

/-- Cell `k` of the span that starts at `(i, j)` and runs along direction `d`. -/
def spanCell (d : Nat) (i j : Int) (k : Nat) : Int × Int :=
  (i + k * (delta d).1, j + k * (delta d).2)

/-- The cell `(a, b)` is one of the first `n` cells of the span. -/
def Covers (d : Nat) (i j : Int) (n : Nat) (a b : Int) : Prop :=
  ∃ k, k < n ∧ spanCell d i j k = (a, b)

instance (d : Nat) (i j : Int) (n : Nat) (a b : Int) : Decidable (Covers d i j n a b) := by
  unfold Covers; infer_instance

/-- The word is spelled, up to case, by the span at `(i, j)` along `d`, and
the whole span lies inside the grid. -/
def Matches (word : Word) (grid : Grid) (gridSize : Nat) (i j d : Nat) : Prop :=
  ∀ k, k < word.length →
    inGrid gridSize (spanCell d i j k).1 (spanCell d i j k).2 = true ∧
    tolower (charAt word k) = tolower (grid (spanCell d i j k).1 (spanCell d i j k).2)

instance (word : Word) (grid : Grid) (gridSize i j d : Nat) :
    Decidable (Matches word grid gridSize i j d) := by
  unfold Matches; infer_instance

/-- Candidate `(i, j, d)` comes no later than `(i', j', d')` in the order of the
three nested loops. -/
def scanLE (i j d i' j' d' : Nat) : Prop :=
  i < i' ∨ (i = i' ∧ (j < j' ∨ (j = j' ∧ d ≤ d')))

/-- A grid given by its rows, for concrete examples; cells outside the rows
are blank. -/
def gridOfRows (rows : List Word) : Grid :=
  fun r c => if r < 0 ∨ c < 0 then blank else (rows.getD r.toNat []).getD c.toNat blank

/-- Example grid: `cat` on row 0, left to right. -/
def catGrid : Grid := gridOfRows ["cat".toList, "xyz".toList, "pqr".toList]

/-- The invariant of the placement loop: the bookkeeping of the placed words
agrees with the record of placements, the placed words are distinct words of
the dictionary of the target length, their spans lie inside the grid, and
every cell of the grid is blank or holds a character of a dictionary word of
the target length. -/
structure PlaceInv (words : List Word) (gridSize targetWordCount targetWordLength : Nat)
    (s : PlaceState) : Prop where
  words_eq : s.placedWordsList = s.placements.map (fun p => p.word)
  count_eq : s.placedWords = s.placedWordsList.length
  count_le : s.placedWords ≤ targetWordCount
  nodup : s.placedWordsList.Nodup
  from_dict : ∀ w, w ∈ s.placedWordsList → w ∈ words ∧ w.length = targetWordLength
  in_bounds : ∀ p, p ∈ s.placements → p.direction < 8 ∧ ∀ k, k < targetWordLength →
    inGrid gridSize (spanCell p.direction p.row p.col k).1
      (spanCell p.direction p.row p.col k).2 = true
  cells : ∀ a b, inGrid gridSize a b = true →
    s.grid a b = blank ∨ ∃ w, w ∈ words ∧ w.length = targetWordLength ∧ s.grid a b ∈ w

/-- Every recorded placement is spelled by the grid along its span. -/
def Spelled (targetWordLength : Nat) (grid : Grid) (placements : List Placement) : Prop :=
  ∀ p, p ∈ placements → ∀ k, k < targetWordLength →
    grid (spanCell p.direction p.row p.col k).1 (spanCell p.direction p.row p.col k).2 =
      charAt p.word k

/-- The grid after a sequence of guesses, each passed to `checkWordInGrid`. -/
def afterGuesses (grid : Grid) (gridSize : Nat) : List Word → Grid
  | [] => grid
  | w :: rest => afterGuesses (checkWordInGrid w grid gridSize).2 gridSize rest

/-- Whether some call of the sequence returned `true`. -/
def anyFound (grid : Grid) (gridSize : Nat) : List Word → Bool
  | [] => false
  | w :: rest =>
    (checkWordInGrid w grid gridSize).1 ||
      anyFound (checkWordInGrid w grid gridSize).2 gridSize rest

/-- Example dictionary: `cat` and `tag` can cross at a `t`. -/
def demoWords : List Word := ["cat".toList, "tag".toList, "dog".toList]

/-- Example stream of draws: `cat` at (0, 0) going right, then `tag` at (0, 2)
going down; the later draws feed the random fill. -/
def demoRand : Nat → Nat := fun n => [0, 0, 0, 0, 1, 0, 2, 2].getD n n

/-- The state returned by `populateGrid` on the example input (grid size 3,
two words of length 3). -/
def demoState : PlaceState :=
  match populateGrid demoRand 2 catGrid 3 demoWords 3 2 3 with
  | .ok s => s
  | .error _ => initState catGrid 3 2

/-- A loop state from which the example draws attempt `dog` at (0, 1) going
up, which leaves the grid. -/
def outsideState : PlaceState :=
  { grid := catGrid, placedWords := 0, maxAttempts := 5, placedWordsList := [],
    draws := 8, placements := [] }

/-- The array whose first entries are the given words; the remaining entries
are empty strings, as in a freshly declared `std::string` array. -/
def arrayOf (words : List Word) : WordArray := fun i => words.getD i []

/-- The list the specification describes for an insertion at index `i`:
`t[0..i)`, then the candidate, then `t[i..4)`. -/
def insertedAt (t : List Int) (c : Int) (i : Nat) : List Int :=
  t.take i ++ [c] ++ (t.drop i).take (4 - i)

/-- The dictionary of the end-to-end scenario. -/
def scenarioWords : List Word := ["cat".toList, "dog".toList, "owl".toList]

/-- The game state before the guess `CAT` on the example grid. -/
def catGuessState : GuessState :=
  { grid := catGrid, totalChances := 5, successfulGuesses := 0, guessedWords := [], score := 0 }

/-- The attempt of the placement loop whose word is chosen by draw number `d`
fits: the origin and direction chosen by the next three draws give a span of
`len` cells that lies inside the grid. -/
def attemptFits (rand : Nat → Nat) (gridSize len d : Nat) : Bool :=
  (List.range len).all fun k =>
    inGrid gridSize
      (spanCell (rand (d + 3) % 8) ((rand (d + 1) % gridSize : Nat) : Int)
        ((rand (d + 2) % gridSize : Nat) : Int) k).1
      (spanCell (rand (d + 3) % 8) ((rand (d + 1) % gridSize : Nat) : Int)
        ((rand (d + 2) % gridSize : Nat) : Int) k).2

/-- Draws for the scenario whose first attempt puts `owl` at (1, 1) going
right. -/
def owlRand : Nat → Nat := fun n => [2, 1, 1, 0].getD n 0

/-- Draws for the scenario whose first attempt puts `cat` at (0, 0) going
right and whose fill then writes `d`, `o`, `g` into (1, 0), (1, 1), (1, 2). -/
def dogFillRand : Nat → Nat := fun n => [0, 0, 0, 0, 25, 25, 3, 14, 6].getD n 25

/-! ## Geometry of spans and the loops of the search -/

theorem spanCell_zero (d : Nat) (i j : Int) : spanCell d i j 0 = (i, j) := by
  simp [spanCell]

theorem advance_eq (d : Nat) (i j : Int) : advance d i j = spanCell d i j 1 := by
  unfold advance spanCell delta
  split <;> simp <;> omega

theorem spanCell_succ (d : Nat) (i j : Int) (k : Nat) :
    spanCell d i j (k + 1) = spanCell d (advance d i j).1 (advance d i j).2 k := by
  rw [advance_eq]
  simp only [spanCell, Prod.mk.injEq]
  push_cast
  constructor <;> ring

theorem cellAt_eq (d : Nat) (row col : Int) (k : Nat) (hd : d < 8) :
    cellAt d row col k = spanCell d row col k := by
  unfold cellAt spanCell delta
  interval_cases d <;> simp <;> omega

theorem charAt_cons_succ (c : Char) (w : Word) (k : Nat) : charAt (c :: w) (k + 1) = charAt w k := by
  simp [charAt]

theorem charAt_cons_zero (c : Char) (w : Word) : charAt (c :: w) 0 = c := by
  simp [charAt]

theorem matchLoop_iff (grid : Grid) (d : Nat) (word : Word) (i j : Int) :
    matchLoop grid d word i j = true ↔
      ∀ k, k < word.length →
        tolower (charAt word k) = tolower (grid (spanCell d i j k).1 (spanCell d i j k).2) := by
  induction word generalizing i j with
  | nil => simp [matchLoop]
  | cons c rest ih =>
    simp only [matchLoop, List.length_cons]
    by_cases hc : tolower c = tolower (grid i j)
    · simp only [hc, bne_self_eq_false, Bool.false_eq_true, if_false, ih]
      constructor
      · intro h k hk
        cases k with
        | zero => simpa [charAt_cons_zero, spanCell_zero] using hc
        | succ k =>
          rw [charAt_cons_succ, spanCell_succ]
          exact h k (by omega)
      · intro h k hk
        have := h (k + 1) (by omega)
        rwa [charAt_cons_succ, spanCell_succ] at this
    · have hne : (tolower c != tolower (grid i j)) = true := by simpa using hc
      simp only [hne, if_true, Bool.false_eq_true, false_iff]
      intro h
      have := h 0 (by omega)
      rw [charAt_cons_zero, spanCell_zero] at this
      exact hc this

theorem markLoop_apply (d : Nat) (n : Nat) (grid : Grid) (i j a b : Int) :
    markLoop d n grid i j a b = if Covers d i j n a b then consumed else grid a b := by
  induction n generalizing grid i j with
  | zero => simp [markLoop, Covers]
  | succ n ih =>
    rw [markLoop, ih]
    by_cases h1 : Covers d (advance d i j).1 (advance d i j).2 n a b
    · have h2 : Covers d i j (n + 1) a b := by
        obtain ⟨k, hk, hk'⟩ := h1
        exact ⟨k + 1, by omega, by rw [spanCell_succ]; exact hk'⟩
      rw [if_pos h1, if_pos h2]
    · by_cases h0 : a = i ∧ b = j
      · have h2 : Covers d i j (n + 1) a b :=
          ⟨0, by omega, by rw [spanCell_zero, h0.1, h0.2]⟩
        rw [if_neg h1, if_pos h2]
        simp [setCell, h0]
      · have h2 : ¬ Covers d i j (n + 1) a b := by
          rintro ⟨k, hk, hk'⟩
          cases k with
          | zero =>
            rw [spanCell_zero] at hk'
            simp only [Prod.mk.injEq] at hk'
            exact h0 ⟨hk'.1.symm, hk'.2.symm⟩
          | succ k =>
            rw [spanCell_succ] at hk'
            exact h1 ⟨k, by omega, hk'⟩
        rw [if_neg h1, if_neg h2]
        simp [setCell, h0]

theorem boundsSkip_false_iff (d i j len gridSize : Nat) (hd : d < 8)
    (hi : i < gridSize) (hj : j < gridSize) :
    boundsSkip d i j len gridSize = false ↔
      ∀ k, k < len → inGrid gridSize (spanCell d i j k).1 (spanCell d i j k).2 = true := by
  constructor
  · intro h k hk
    interval_cases d <;> simp [boundsSkip] at h <;> simp [inGrid, spanCell, delta] <;> omega
  · intro h
    rcases Nat.eq_zero_or_pos len with h0 | hpos
    · subst h0
      interval_cases d <;> simp [boundsSkip] <;> omega
    · have hlast := h (len - 1) (by omega)
      interval_cases d <;> simp [inGrid, spanCell, delta] at hlast <;> simp [boundsSkip] <;> omega

theorem tryDirection_eq (word : Word) (grid : Grid) (gridSize i j d : Nat) (hd : d < 8)
    (hi : i < gridSize) (hj : j < gridSize) :
    tryDirection word grid gridSize i j d =
      if Matches word grid gridSize i j d then some (markLoop d word.length grid i j) else none := by
  unfold tryDirection
  by_cases hb : boundsSkip d i j word.length gridSize = true
  · have hnot : ¬ Matches word grid gridSize i j d := by
      intro hm
      have := (boundsSkip_false_iff d i j word.length gridSize hd hi hj).2 (fun k hk => (hm k hk).1)
      rw [this] at hb
      exact Bool.false_ne_true hb
    rw [if_pos hb, if_neg hnot]
  · have hb' : boundsSkip d i j word.length gridSize = false := by simpa using hb
    have hin := (boundsSkip_false_iff d i j word.length gridSize hd hi hj).1 hb'
    rw [if_neg hb]
    by_cases hm : matchLoop grid d word i j = true
    · have hM : Matches word grid gridSize i j d :=
        fun k hk => ⟨hin k hk, (matchLoop_iff grid d word i j).1 hm k hk⟩
      rw [if_pos hm, if_pos hM]
    · have hM : ¬ Matches word grid gridSize i j d :=
        fun hM => hm ((matchLoop_iff grid d word i j).2 (fun k hk => (hM k hk).2))
      rw [if_neg hm, if_neg hM]

theorem findSome_range_none {β : Type} (f : Nat → Option β) (n : Nat) :
    (List.range n).findSome? f = none ↔ ∀ i, i < n → f i = none := by
  simp [List.findSome?_eq_none_iff, List.mem_range]

theorem findSome_range_some {β : Type} (f : Nat → Option β) (n : Nat) (b : β) :
    (List.range n).findSome? f = some b ↔
      ∃ i, i < n ∧ f i = some b ∧ ∀ i', i' < i → f i' = none := by
  induction n generalizing b with
  | zero => simp
  | succ n ih =>
    rw [List.range_succ, List.findSome?_append]
    have hlast : List.findSome? f [n] = f n := by
      simp only [List.findSome?_cons, List.findSome?_nil]
      cases f n <;> rfl
    rw [hlast]
    cases hpre : (List.range n).findSome? f with
    | none =>
      have hnone := (findSome_range_none f n).1 hpre
      simp only [Option.or]
      constructor
      · intro h
        exact ⟨n, by omega, h, hnone⟩
      · rintro ⟨i, hi, hfi, _⟩
        rcases Nat.lt_or_ge i n with hlt | hge
        · rw [hnone i hlt] at hfi
          exact absurd hfi (by simp)
        · have : i = n := by omega
          rw [← this]; exact hfi
    | some b' =>
      obtain ⟨i0, hi0, hf0, hfirst0⟩ := (ih b').1 hpre
      simp only [Option.or]
      constructor
      · intro h
        have hb : b' = b := by simpa using h
        exact ⟨i0, by omega, hb ▸ hf0, hfirst0⟩
      · rintro ⟨i, hi, hfi, hfirst⟩
        rcases Nat.lt_trichotomy i i0 with hlt | heq | hgt
        · rw [hfirst0 i hlt] at hfi
          exact absurd hfi (by simp)
        · subst heq
          rw [hf0] at hfi
          exact hfi
        · rw [hfirst i0 hgt] at hf0
          exact absurd hf0 (by simp)

/-! ## The scan of `checkWordInGrid` -/

theorem scan_eq_none_iff (word : Word) (grid : Grid) (gridSize : Nat) :
    scan word grid gridSize = none ↔
      ∀ i j d, i < gridSize → j < gridSize → d < 8 → ¬ Matches word grid gridSize i j d := by
  unfold scan NUM_DIRECTIONS
  simp only [findSome_range_none]
  constructor
  · intro h i j d hi hj hd hM
    have := h i hi j hj d hd
    rw [tryDirection_eq word grid gridSize i j d hd hi hj, if_pos hM] at this
    exact absurd this (by simp)
  · intro h i hi j hj d hd
    rw [tryDirection_eq word grid gridSize i j d hd hi hj, if_neg (h i j d hi hj hd)]

theorem scan_eq_some (word : Word) (grid marked : Grid) (gridSize : Nat)
    (h : scan word grid gridSize = some marked) :
    ∃ i j d, i < gridSize ∧ j < gridSize ∧ d < 8 ∧ Matches word grid gridSize i j d ∧
      marked = markLoop d word.length grid i j ∧
      ∀ i' j' d', i' < gridSize → j' < gridSize → d' < 8 →
        Matches word grid gridSize i' j' d' → scanLE i j d i' j' d' := by
  unfold scan NUM_DIRECTIONS at h
  obtain ⟨i, hi, hrow, hrows⟩ := (findSome_range_some _ _ _).1 h
  obtain ⟨j, hj, hcell, hcells⟩ := (findSome_range_some _ _ _).1 hrow
  obtain ⟨d, hd, hdir, hdirs⟩ := (findSome_range_some _ _ _).1 hcell
  rw [tryDirection_eq word grid gridSize i j d hd hi hj] at hdir
  have hM : Matches word grid gridSize i j d := by
    by_contra hn
    rw [if_neg hn] at hdir
    exact absurd hdir (by simp)
  rw [if_pos hM] at hdir
  refine ⟨i, j, d, hi, hj, hd, hM, (Option.some.inj hdir).symm, ?_⟩
  intro i' j' d' hi' hj' hd' hM'
  have hT : tryDirection word grid gridSize i' j' d' ≠ none := by
    rw [tryDirection_eq word grid gridSize i' j' d' hd' hi' hj', if_pos hM']
    simp
  unfold scanLE
  by_contra hnot
  rcases Nat.lt_trichotomy i' i with hlt | heq | hgt
  · have := hrows i' hlt
    simp only [findSome_range_none] at this
    exact hT (this j' hj' d' hd')
  · subst heq
    rcases Nat.lt_trichotomy j' j with hlt | heq | hgt
    · have := hcells j' hlt
      simp only [findSome_range_none] at this
      exact hT (this d' hd')
    · subst heq
      rcases Nat.lt_or_ge d' d with hlt | hge
      · exact hT (hdirs d' hlt)
      · exact hnot (Or.inr ⟨rfl, Or.inr ⟨rfl, hge⟩⟩)
    · exact hnot (Or.inr ⟨rfl, Or.inl hgt⟩)
  · exact hnot (Or.inl hgt)

theorem checkWordInGrid_of_none (word : Word) (grid : Grid) (gridSize : Nat)
    (h : scan word grid gridSize = none) : checkWordInGrid word grid gridSize = (false, grid) := by
  unfold checkWordInGrid
  rw [h]

theorem checkWordInGrid_of_some (word : Word) (grid marked : Grid) (gridSize : Nat)
    (h : scan word grid gridSize = some marked) :
    checkWordInGrid word grid gridSize = (true, marked) := by
  unfold checkWordInGrid
  rw [h]

theorem checkWordInGrid_true (word : Word) (grid : Grid) (gridSize : Nat)
    (h : (checkWordInGrid word grid gridSize).1 = true) :
    ∃ i j d, i < gridSize ∧ j < gridSize ∧ d < 8 ∧ Matches word grid gridSize i j d ∧
      (checkWordInGrid word grid gridSize).2 = markLoop d word.length grid i j ∧
      ∀ i' j' d', i' < gridSize → j' < gridSize → d' < 8 →
        Matches word grid gridSize i' j' d' → scanLE i j d i' j' d' := by
  cases hs : scan word grid gridSize with
  | none =>
    rw [checkWordInGrid_of_none word grid gridSize hs] at h
    exact absurd h (by simp)
  | some marked =>
    obtain ⟨i, j, d, hi, hj, hd, hM, hmk, hfirst⟩ := scan_eq_some word grid marked gridSize hs
    refine ⟨i, j, d, hi, hj, hd, hM, ?_, hfirst⟩
    rw [checkWordInGrid_of_some word grid marked gridSize hs]
    exact hmk

theorem checkWordInGrid_false (word : Word) (grid : Grid) (gridSize : Nat)
    (h : (checkWordInGrid word grid gridSize).1 = false) :
    (checkWordInGrid word grid gridSize).2 = grid ∧
      ∀ i j d, i < gridSize → j < gridSize → d < 8 → ¬ Matches word grid gridSize i j d := by
  cases hs : scan word grid gridSize with
  | none =>
    rw [checkWordInGrid_of_none word grid gridSize hs]
    exact ⟨rfl, (scan_eq_none_iff word grid gridSize).1 hs⟩
  | some marked =>
    rw [checkWordInGrid_of_some word grid marked gridSize hs] at h
    exact absurd h (by simp)

/-- C2. `checkWordInGrid` returns `true` exactly when some origin cell of the
grid and one of the 8 directions carry a span that lies inside the grid and
spells the word after lower-casing both sides; otherwise it returns `false`. -/
theorem checkWordInGrid_true_iff_exists_match (word : Word) (grid : Grid) (gridSize : Nat) :
    (checkWordInGrid word grid gridSize).1 = true ↔
      ∃ i j d, i < gridSize ∧ j < gridSize ∧ d < 8 ∧ Matches word grid gridSize i j d := by
  constructor
  · intro h
    obtain ⟨i, j, d, hi, hj, hd, hM, _⟩ := checkWordInGrid_true word grid gridSize h
    exact ⟨i, j, d, hi, hj, hd, hM⟩
  · rintro ⟨i, j, d, hi, hj, hd, hM⟩
    by_contra hne
    have hf : (checkWordInGrid word grid gridSize).1 = false := by simpa using hne
    exact (checkWordInGrid_false word grid gridSize hf).2 i j d hi hj hd hM

theorem covers_spanCell (d : Nat) (i j : Int) (n k : Nat) (hk : k < n) :
    Covers d i j n (spanCell d i j k).1 (spanCell d i j k).2 :=
  ⟨k, hk, rfl⟩

theorem tolower_eq_consumed (c : Char) (h : tolower c = consumed) : c = consumed := by
  unfold tolower Char.toLower at h
  simp only at h
  split at h
  · rename_i hc
    exfalso
    generalize c.toNat = n at hc h
    obtain ⟨h1, h2⟩ := hc
    interval_cases n <;> revert h <;> decide
  · exact h

theorem charAt_mem (word : Word) (k : Nat) (hk : k < word.length) : charAt word k ∈ word := by
  unfold charAt
  rw [List.getD_eq_getElem?_getD, List.getElem?_eq_getElem hk]
  exact List.getElem_mem hk

theorem matchLoop_congr (grid : Grid) (d : Nat) (w1 w2 : Word) (i j : Int)
    (h : w1.map tolower = w2.map tolower) :
    matchLoop grid d w1 i j = matchLoop grid d w2 i j := by
  induction w1 generalizing w2 i j with
  | nil =>
    cases w2 with
    | nil => rfl
    | cons c rest => simp at h
  | cons c1 r1 ih =>
    cases w2 with
    | nil => simp at h
    | cons c2 r2 =>
      simp only [List.map_cons, List.cons.injEq] at h
      simp only [matchLoop, h.1, ih r2 _ _ h.2]

theorem tryDirection_congr (w1 w2 : Word) (grid : Grid) (gridSize i j d : Nat)
    (h : w1.map tolower = w2.map tolower) :
    tryDirection w1 grid gridSize i j d = tryDirection w2 grid gridSize i j d := by
  have hlen : w1.length = w2.length := by
    have := congrArg List.length h
    simpa using this
  unfold tryDirection
  rw [hlen, matchLoop_congr grid d w1 w2 i j h]

/-- C3. When `checkWordInGrid` returns `true`, the cells that hold the
consumed marker afterwards because of the call are exactly the cells of the
first matching span in scan order (rows, then columns, then directions right,
left, down, up, down-right, up-right, down-left, up-left): every cell of that
span holds `'*'` and every other cell is as before. -/
theorem checkWordInGrid_marks_first_match (word : Word) (grid : Grid) (gridSize : Nat)
    (h : (checkWordInGrid word grid gridSize).1 = true) :
    ∃ i j d, i < gridSize ∧ j < gridSize ∧ d < 8 ∧ Matches word grid gridSize i j d ∧
      (∀ i' j' d', i' < gridSize → j' < gridSize → d' < 8 →
        Matches word grid gridSize i' j' d' → scanLE i j d i' j' d') ∧
      (∀ a b, (checkWordInGrid word grid gridSize).2 a b =
        if Covers d i j word.length a b then consumed else grid a b) ∧
      (∀ k, k < word.length →
        (checkWordInGrid word grid gridSize).2 (spanCell d i j k).1 (spanCell d i j k).2 =
          consumed) := by
  obtain ⟨i, j, d, hi, hj, hd, hM, hmk, hfirst⟩ := checkWordInGrid_true word grid gridSize h
  refine ⟨i, j, d, hi, hj, hd, hM, hfirst, ?_, ?_⟩
  · intro a b
    rw [hmk, markLoop_apply]
  · intro k hk
    rw [hmk, markLoop_apply, if_pos (covers_spanCell d i j word.length k hk)]

/-- Witness for C3: `cat` in the example grid. -/
theorem checkWordInGrid_marks_first_match_witness :
    (checkWordInGrid "cat".toList catGrid 3).1 = true ∧
    ∃ i j d, i < 3 ∧ j < 3 ∧ d < 8 ∧ Matches "cat".toList catGrid 3 i j d ∧
      (∀ i' j' d', i' < 3 → j' < 3 → d' < 8 →
        Matches "cat".toList catGrid 3 i' j' d' → scanLE i j d i' j' d') ∧
      (∀ a b, (checkWordInGrid "cat".toList catGrid 3).2 a b =
        if Covers d i j "cat".toList.length a b then consumed else catGrid a b) ∧
      (∀ k, k < "cat".toList.length →
        (checkWordInGrid "cat".toList catGrid 3).2 (spanCell d i j k).1 (spanCell d i j k).2 =
          consumed) :=
  ⟨by decide, checkWordInGrid_marks_first_match "cat".toList catGrid 3 (by decide)⟩

/-- C4. `checkWordInGrid` changes no cell outside the span it matched: when it
returns `false` the grid is the input grid, and when it returns `true` there
is a matching span such that every cell off that span keeps its value. -/
theorem checkWordInGrid_frame (word : Word) (grid : Grid) (gridSize : Nat) :
    ((checkWordInGrid word grid gridSize).1 = false →
      (checkWordInGrid word grid gridSize).2 = grid) ∧
    ((checkWordInGrid word grid gridSize).1 = true →
      ∃ i j d, i < gridSize ∧ j < gridSize ∧ d < 8 ∧ Matches word grid gridSize i j d ∧
        ∀ a b, ¬ Covers d i j word.length a b →
          (checkWordInGrid word grid gridSize).2 a b = grid a b) := by
  constructor
  · intro h
    exact (checkWordInGrid_false word grid gridSize h).1
  · intro h
    obtain ⟨i, j, d, hi, hj, hd, hM, hmk, _⟩ := checkWordInGrid_true word grid gridSize h
    refine ⟨i, j, d, hi, hj, hd, hM, ?_⟩
    intro a b hcov
    rw [hmk, markLoop_apply, if_neg hcov]

/-- Witness for C4: a failed search (`dog`) and a successful one (`cat`) in
the example grid. -/
theorem checkWordInGrid_frame_witness :
    (checkWordInGrid "dog".toList catGrid 3).1 = false ∧
    (checkWordInGrid "dog".toList catGrid 3).2 = catGrid ∧
    (checkWordInGrid "cat".toList catGrid 3).1 = true ∧
    ∃ i j d, i < 3 ∧ j < 3 ∧ d < 8 ∧ Matches "cat".toList catGrid 3 i j d ∧
      ∀ a b, ¬ Covers d i j "cat".toList.length a b →
        (checkWordInGrid "cat".toList catGrid 3).2 a b = catGrid a b :=
  ⟨by decide, (checkWordInGrid_frame "dog".toList catGrid 3).1 (by decide), by decide,
    (checkWordInGrid_frame "cat".toList catGrid 3).2 (by decide)⟩

/-- C6. `checkWordInGrid` is case-insensitive in the word: two words that are
equal after lower-casing give the same boolean and the same resulting grid. -/
theorem checkWordInGrid_case_insensitive (w1 w2 : Word) (grid : Grid) (gridSize : Nat)
    (h : w1.map tolower = w2.map tolower) :
    checkWordInGrid w1 grid gridSize = checkWordInGrid w2 grid gridSize := by
  have hscan : scan w1 grid gridSize = scan w2 grid gridSize := by
    unfold scan
    simp only [tryDirection_congr w1 w2 grid gridSize _ _ _ h]
  unfold checkWordInGrid
  rw [hscan]

/-- Witness for C6: `CAT` and `cat` on the example grid, where `CAT` is found
in the lowercase `cat`. -/
theorem checkWordInGrid_case_insensitive_witness :
    "CAT".toList.map tolower = "cat".toList.map tolower ∧
    checkWordInGrid "CAT".toList catGrid 3 = checkWordInGrid "cat".toList catGrid 3 ∧
    (checkWordInGrid "CAT".toList catGrid 3).1 = true :=
  ⟨by decide, checkWordInGrid_case_insensitive "CAT".toList "cat".toList catGrid 3 (by decide),
    by decide⟩

theorem matches_after_mark (word : Word) (grid : Grid) (gridSize i0 j0 d0 i j d : Nat)
    (hstar : consumed ∉ word)
    (hM : Matches word (markLoop d0 word.length grid i0 j0) gridSize i j d) :
    Matches word grid gridSize i j d ∧
      ∀ k, k < word.length →
        ¬ Covers d0 i0 j0 word.length (spanCell d i j k).1 (spanCell d i j k).2 := by
  have hoff : ∀ k, k < word.length →
      ¬ Covers d0 i0 j0 word.length (spanCell d i j k).1 (spanCell d i j k).2 := by
    intro k hk hcov
    have h2 := (hM k hk).2
    rw [markLoop_apply, if_pos hcov] at h2
    have h3 : tolower consumed = consumed := by decide
    rw [h3] at h2
    have h4 := tolower_eq_consumed _ h2
    exact hstar (h4 ▸ charAt_mem word k hk)
  refine ⟨fun k hk => ⟨(hM k hk).1, ?_⟩, hoff⟩
  have h2 := (hM k hk).2
  rw [markLoop_apply, if_neg (hoff k hk)] at h2
  exact h2

/-- C5. For a non-empty word without `'*'` whose matches in the grid all
cover the same cells (and there is at least one), `checkWordInGrid` returns
`true`, the cells of every such match hold the consumed marker afterwards,
and a second call with the same word on the resulting grid returns `false`. -/
theorem checkWordInGrid_single_occurrence (word : Word) (grid : Grid) (gridSize : Nat)
    (hne : word ≠ []) (hstar : consumed ∉ word)
    (hex : ∃ i j d, i < gridSize ∧ j < gridSize ∧ d < 8 ∧ Matches word grid gridSize i j d)
    (hsame : ∀ i j d i' j' d', i < gridSize → j < gridSize → d < 8 →
      i' < gridSize → j' < gridSize → d' < 8 →
      Matches word grid gridSize i j d → Matches word grid gridSize i' j' d' →
      ∀ a b, Covers d i j word.length a b ↔ Covers d' i' j' word.length a b) :
    (checkWordInGrid word grid gridSize).1 = true ∧
    (∀ i j d, i < gridSize → j < gridSize → d < 8 → Matches word grid gridSize i j d →
      ∀ k, k < word.length →
        (checkWordInGrid word grid gridSize).2 (spanCell d i j k).1 (spanCell d i j k).2 =
          consumed) ∧
    (checkWordInGrid word (checkWordInGrid word grid gridSize).2 gridSize).1 = false := by
  have hlen : 0 < word.length := List.length_pos.2 hne
  have htrue : (checkWordInGrid word grid gridSize).1 = true := by
    by_contra hnot
    have hf : (checkWordInGrid word grid gridSize).1 = false := by simpa using hnot
    obtain ⟨i, j, d, hi, hj, hd, hM⟩ := hex
    exact (checkWordInGrid_false word grid gridSize hf).2 i j d hi hj hd hM
  obtain ⟨i0, j0, d0, hi0, hj0, hd0, hM0, hmk, _⟩ := checkWordInGrid_true word grid gridSize htrue
  refine ⟨htrue, ?_, ?_⟩
  · intro i j d hi hj hd hM k hk
    have hcov : Covers d0 i0 j0 word.length (spanCell d i j k).1 (spanCell d i j k).2 :=
      (hsame i j d i0 j0 d0 hi hj hd hi0 hj0 hd0 hM hM0 _ _).1
        (covers_spanCell d i j word.length k hk)
    rw [hmk, markLoop_apply, if_pos hcov]
  · by_contra hnot
    have ht : (checkWordInGrid word (checkWordInGrid word grid gridSize).2 gridSize).1 = true := by
      simpa using hnot
    obtain ⟨i, j, d, hi, hj, hd, hM, _⟩ := checkWordInGrid_true word _ gridSize ht
    rw [hmk] at hM
    obtain ⟨hMold, hoff⟩ := matches_after_mark word grid gridSize i0 j0 d0 i j d hstar hM
    have hcov : Covers d0 i0 j0 word.length (spanCell d i j 0).1 (spanCell d i j 0).2 :=
      (hsame i j d i0 j0 d0 hi hj hd hi0 hj0 hd0 hMold hM0 _ _).1
        (covers_spanCell d i j word.length 0 hlen)
    exact hoff 0 hlen hcov

set_option synthInstance.maxSize 512 in
theorem catGrid_only_match :
    ∀ i, i < 3 → ∀ j, j < 3 → ∀ d, d < 8 → Matches "cat".toList catGrid 3 i j d →
      i = 0 ∧ j = 0 ∧ d = 0 := by
  decide

/-- Witness for C5: `cat` occurs once in the example grid, at row 0, columns
0 to 2, going right. -/
theorem checkWordInGrid_single_occurrence_witness :
    (checkWordInGrid "cat".toList catGrid 3).1 = true ∧
    (∀ i j d, i < 3 → j < 3 → d < 8 → Matches "cat".toList catGrid 3 i j d →
      ∀ k, k < "cat".toList.length →
        (checkWordInGrid "cat".toList catGrid 3).2 (spanCell d i j k).1 (spanCell d i j k).2 =
          consumed) ∧
    (checkWordInGrid "cat".toList (checkWordInGrid "cat".toList catGrid 3).2 3).1 = false :=
  checkWordInGrid_single_occurrence "cat".toList catGrid 3 (by decide) (by decide)
    ⟨0, 0, 0, by decide, by decide, by decide, by decide⟩
    (by
      intro i j d i' j' d' hi hj hd hi' hj' hd' hM hM' a b
      obtain ⟨rfl, rfl, rfl⟩ := catGrid_only_match i hi j hj d hd hM
      obtain ⟨rfl, rfl, rfl⟩ := catGrid_only_match i' hi' j' hj' d' hd' hM'
      exact Iff.rfl)

/-! ## The loops of `populateGrid` -/

theorem foldl_preserve {σ α : Type} (f : σ → α → σ) (P : σ → Prop)
    (hp : ∀ s y, P s → P (f s y)) (l : List α) (init : σ) (h : P init) :
    P (l.foldl f init) := by
  induction l generalizing init with
  | nil => exact h
  | cons y rest ih => exact ih (f init y) (hp init y h)

theorem foldl_establish {σ α : Type} (f : σ → α → σ) (P : σ → Prop) (x : α)
    (hx : ∀ s, P (f s x)) (hp : ∀ s y, P s → P (f s y)) (l : List α) (init : σ)
    (hmem : x ∈ l) : P (l.foldl f init) := by
  induction l generalizing init with
  | nil => simp at hmem
  | cons y rest ih =>
    rcases List.mem_cons.1 hmem with rfl | hrest
    · exact foldl_preserve f P hp rest _ (hx init)
    · exact ih (f init y) hrest

theorem inGrid_iff (gridSize : Nat) (r c : Int) :
    inGrid gridSize r c = true ↔ 0 ≤ r ∧ r < gridSize ∧ 0 ≤ c ∧ c < gridSize := by
  simp [inGrid, and_assoc]

theorem spanCell_injective (d : Nat) (i j : Int) (k k' : Nat) (hd : d < 8)
    (h : spanCell d i j k = spanCell d i j k') : k = k' := by
  unfold spanCell delta at h
  interval_cases d <;> simp at h <;> omega

theorem writeWord_succ (grid : Grid) (word : Word) (row col : Int) (direction n : Nat) :
    writeWord grid word row col direction (n + 1) =
      setCell (writeWord grid word row col direction n)
        (cellAt direction row col n).1 (cellAt direction row col n).2 (charAt word n) := by
  unfold writeWord
  rw [List.range_succ, List.foldl_append]
  rfl

theorem writeWord_off_span (grid : Grid) (word : Word) (row col : Int) (direction n : Nat)
    (a b : Int) (hd : direction < 8) (h : ¬ Covers direction row col n a b) :
    writeWord grid word row col direction n a b = grid a b := by
  induction n with
  | zero => rfl
  | succ n ih =>
    rw [writeWord_succ]
    have hn : ¬ Covers direction row col n a b := by
      rintro ⟨k, hk, hk'⟩
      exact h ⟨k, by omega, hk'⟩
    have hne : ¬ (a = (cellAt direction row col n).1 ∧ b = (cellAt direction row col n).2) := by
      rintro ⟨ha, hb⟩
      apply h
      refine ⟨n, by omega, ?_⟩
      rw [← cellAt_eq direction row col n hd, ha, hb]
    simp only [setCell, if_neg hne]
    exact ih hn

theorem writeWord_on_span (grid : Grid) (word : Word) (row col : Int) (direction n k : Nat)
    (hd : direction < 8) (hk : k < n) :
    writeWord grid word row col direction n
      (spanCell direction row col k).1 (spanCell direction row col k).2 = charAt word k := by
  induction n with
  | zero => omega
  | succ n ih =>
    rw [writeWord_succ, cellAt_eq direction row col n hd]
    rcases Nat.lt_or_ge k n with hlt | hge
    · have hne : ¬ ((spanCell direction row col k).1 = (spanCell direction row col n).1 ∧
          (spanCell direction row col k).2 = (spanCell direction row col n).2) := by
        rintro ⟨h1, h2⟩
        have := spanCell_injective direction row col k n hd (Prod.ext h1 h2)
        omega
      simp only [setCell, if_neg hne]
      exact ih hlt
    · have : k = n := by omega
      subst this
      simp [setCell]

theorem canPlace_iff (grid : Grid) (gridSize : Nat) (word : Word) (row col : Int)
    (direction len : Nat) (hd : direction < 8) :
    canPlace grid gridSize word row col direction len = true ↔
      ∀ k, k < len →
        inGrid gridSize (spanCell direction row col k).1 (spanCell direction row col k).2 = true ∧
        (grid (spanCell direction row col k).1 (spanCell direction row col k).2 = blank ∨
          grid (spanCell direction row col k).1 (spanCell direction row col k).2 =
            charAt word k) := by
  unfold canPlace cellFree
  simp only [List.all_eq_true, List.mem_range, cellAt_eq _ _ _ _ hd, Bool.and_eq_true,
    Bool.or_eq_true, beq_iff_eq]

theorem writeWord_keeps_letters (grid : Grid) (gridSize : Nat) (word : Word) (row col : Int)
    (direction len : Nat) (a b : Int) (hd : direction < 8)
    (hcan : canPlace grid gridSize word row col direction len = true)
    (hnb : grid a b ≠ blank) :
    writeWord grid word row col direction len a b = grid a b := by
  by_cases hcov : Covers direction row col len a b
  · obtain ⟨k, hk, hcell⟩ := hcov
    have hfree := ((canPlace_iff grid gridSize word row col direction len hd).1 hcan k hk).2
    have ha : (spanCell direction row col k).1 = a := by rw [hcell]
    have hb : (spanCell direction row col k).2 = b := by rw [hcell]
    have hw := writeWord_on_span grid word row col direction len k hd hk
    rw [ha, hb] at hw hfree
    rcases hfree with h | h
    · exact absurd h hnb
    · rw [hw, h]
  · exact writeWord_off_span grid word row col direction len a b hd hcov

theorem writeWord_values (grid : Grid) (word : Word) (row col : Int) (direction len : Nat)
    (a b : Int) (hd : direction < 8) :
    writeWord grid word row col direction len a b = grid a b ∨
      ∃ k, k < len ∧ writeWord grid word row col direction len a b = charAt word k := by
  by_cases hcov : Covers direction row col len a b
  · obtain ⟨k, hk, hcell⟩ := hcov
    have ha : (spanCell direction row col k).1 = a := by rw [hcell]
    have hb : (spanCell direction row col k).2 = b := by rw [hcell]
    have hw := writeWord_on_span grid word row col direction len k hd hk
    rw [ha, hb] at hw
    exact Or.inr ⟨k, hk, hw⟩
  · exact Or.inl (writeWord_off_span grid word row col direction len a b hd hcov)

/-! ## The placement loop and its invariant -/

theorem loopBody_ok (rand : Nat → Nat) (words : List Word)
    (totalWords gridSize len : Nat) (s s' : PlaceState)
    (h : loopBody rand words totalWords gridSize len s = .ok s') :
    (s'.grid = s.grid ∧ s'.placedWords = s.placedWords ∧
      s'.placedWordsList = s.placedWordsList ∧ s'.placements = s.placements) ∨
    ∃ word, word ∈ words ∧ word.length = len ∧ word ∉ s.placedWordsList ∧
      canPlace s.grid gridSize word ((rand (s.draws + 1) % gridSize : Nat) : Int)
        ((rand (s.draws + 2) % gridSize : Nat) : Int) (rand (s.draws + 3) % 8) len = true ∧
      s'.grid = writeWord s.grid word ((rand (s.draws + 1) % gridSize : Nat) : Int)
        ((rand (s.draws + 2) % gridSize : Nat) : Int) (rand (s.draws + 3) % 8) len ∧
      s'.placedWords = s.placedWords + 1 ∧
      s'.placedWordsList = s.placedWordsList ++ [word] ∧
      s'.placements = s.placements ++
        [⟨word, ((rand (s.draws + 1) % gridSize : Nat) : Int),
          ((rand (s.draws + 2) % gridSize : Nat) : Int), rand (s.draws + 3) % 8⟩] := by
  unfold loopBody at h
  split at h
  · exact absurd h (by simp)
  · split at h
    · exact absurd h (by simp)
    · rename_i word hword
      split at h
      · cases h; exact Or.inl ⟨rfl, rfl, rfl, rfl⟩
      · rename_i hlen
        split at h
        · cases h; exact Or.inl ⟨rfl, rfl, rfl, rfl⟩
        · rename_i hnew
          split at h
          · exact absurd h (by simp)
          · simp only [NUM_DIRECTIONS] at h
            split at h
            · rename_i hcan
              split at h
              · exact absurd h (by simp)
              · cases h
                refine Or.inr ⟨word, List.getElem?_mem hword, by simpa using hlen, ?_, hcan,
                  rfl, rfl, rfl, rfl⟩
                intro hmem
                apply hnew
                simp only [List.any_eq_true, beq_iff_eq]
                exact ⟨word, hmem, rfl⟩
            · cases h; exact Or.inl ⟨rfl, rfl, rfl, rfl⟩

theorem placeLoop_induct (rand : Nat → Nat) (words : List Word)
    (totalWords gridSize count len : Nat) (P : PlaceState → Prop)
    (hstep : ∀ s s', loopCond count s = true → P s →
      loopBody rand words totalWords gridSize len s = .ok s' → P s')
    (fuel : Nat) (s s' : PlaceState) (hs : P s)
    (h : placeLoop rand words totalWords gridSize count len fuel s = .ok s') : P s' := by
  induction fuel generalizing s with
  | zero =>
    unfold placeLoop at h
    split at h
    · exact absurd h (by simp)
    · cases h; exact hs
  | succ fuel ih =>
    unfold placeLoop at h
    split at h
    · rename_i hc
      split at h
      · rename_i s1 hbody
        exact ih s1 (hstep s s1 hc hs hbody) h
      · exact absurd h (by simp)
    · cases h; exact hs

theorem blankGrid_apply (grid : Grid) (gridSize : Nat) (a b : Int)
    (h : inGrid gridSize a b = true) : blankGrid grid gridSize a b = blank := by
  obtain ⟨ha0, ha1, hb0, hb1⟩ := (inGrid_iff gridSize a b).1 h
  have hia : ((a.toNat : Nat) : Int) = a := Int.toNat_of_nonneg ha0
  have hib : ((b.toNat : Nat) : Int) = b := Int.toNat_of_nonneg hb0
  have hset : ∀ (g : Grid) (i j : Nat), g a b = blank → setCell g i j blank a b = blank := by
    intro g i j hg
    simp only [setCell]
    split
    · rfl
    · exact hg
  unfold blankGrid
  refine foldl_establish _ (fun g : Grid => g a b = blank) a.toNat ?_ ?_
    (List.range gridSize) grid (List.mem_range.2 (by omega))
  · intro g
    refine foldl_establish _ (fun g : Grid => g a b = blank) b.toNat ?_ ?_
      (List.range gridSize) g (List.mem_range.2 (by omega))
    · intro g'
      simp [setCell, hia, hib]
    · intro g' j hg'
      exact hset g' a.toNat j hg'
  · intro g i hg
    exact foldl_preserve _ (fun g : Grid => g a b = blank) (fun g' j hg' => hset g' i j hg')
      (List.range gridSize) g hg

theorem placeInv_init (words : List Word) (grid : Grid) (gridSize count len : Nat) :
    PlaceInv words gridSize count len (initState grid gridSize count) where
  words_eq := rfl
  count_eq := rfl
  count_le := Nat.zero_le _
  nodup := List.nodup_nil
  from_dict := by intro w hw; simp [initState] at hw
  in_bounds := by intro p hp; simp [initState] at hp
  cells := by
    intro a b hab
    exact Or.inl (blankGrid_apply grid gridSize a b hab)

theorem placeInv_step (rand : Nat → Nat) (words : List Word)
    (totalWords gridSize count len : Nat) (s s' : PlaceState)
    (hc : loopCond count s = true) (hinv : PlaceInv words gridSize count len s)
    (h : loopBody rand words totalWords gridSize len s = .ok s') :
    PlaceInv words gridSize count len s' := by
  rcases loopBody_ok rand words totalWords gridSize len s s' h with
    ⟨hg, hn, hl, hp⟩ | ⟨word, hmem, hlen, hnew, hcan, hg, hn, hl, hp⟩
  · exact
      { words_eq := by rw [hl, hp]; exact hinv.words_eq
        count_eq := by rw [hn, hl]; exact hinv.count_eq
        count_le := by rw [hn]; exact hinv.count_le
        nodup := by rw [hl]; exact hinv.nodup
        from_dict := by rw [hl]; exact hinv.from_dict
        in_bounds := by rw [hp]; exact hinv.in_bounds
        cells := by rw [hg]; exact hinv.cells }
  · have hd : rand (s.draws + 3) % 8 < 8 := Nat.mod_lt _ (by omega)
    have hlt : s.placedWords < count := by
      unfold loopCond at hc
      simp only [Bool.and_eq_true, decide_eq_true_eq] at hc
      exact hc.1
    exact
      { words_eq := by rw [hl, hp, hinv.words_eq]; simp
        count_eq := by rw [hn, hl, hinv.count_eq]; simp
        count_le := by rw [hn]; omega
        nodup := by
          rw [hl]
          refine List.Nodup.append hinv.nodup (List.nodup_singleton _) ?_
          intro w hw1 hw2
          rw [List.mem_singleton] at hw2
          exact hnew (hw2 ▸ hw1)
        from_dict := by
          intro w hw
          rw [hl, List.mem_append, List.mem_singleton] at hw
          rcases hw with hw | rfl
          · exact hinv.from_dict w hw
          · exact ⟨hmem, hlen⟩
        in_bounds := by
          intro p hpm
          rw [hp, List.mem_append, List.mem_singleton] at hpm
          rcases hpm with hpm | rfl
          · exact hinv.in_bounds p hpm
          · exact ⟨hd, fun k hk => ((canPlace_iff _ _ _ _ _ _ _ hd).1 hcan k hk).1⟩
        cells := by
          intro a b hab
          rw [hg]
          rcases writeWord_values s.grid word _ _ _ len a b hd with hsame | ⟨k, hk, hval⟩
          · rw [hsame]; exact hinv.cells a b hab
          · refine Or.inr ⟨word, hmem, hlen, ?_⟩
            rw [hval]
            exact charAt_mem word k (by omega) }

theorem spelled_step (rand : Nat → Nat) (words : List Word)
    (totalWords gridSize count len : Nat) (s s' : PlaceState)
    (hblank : ∀ w, w ∈ words → blank ∉ w)
    (hinv : PlaceInv words gridSize count len s)
    (hsp : Spelled len s.grid s.placements)
    (h : loopBody rand words totalWords gridSize len s = .ok s') :
    Spelled len s'.grid s'.placements := by
  rcases loopBody_ok rand words totalWords gridSize len s s' h with
    ⟨hg, _, _, hp⟩ | ⟨word, hmem, hlen, hnew, hcan, hg, hn, hl, hp⟩
  · rw [hg, hp]; exact hsp
  · have hd : rand (s.draws + 3) % 8 < 8 := Nat.mod_lt _ (by omega)
    intro p hpm k hk
    rw [hp, List.mem_append, List.mem_singleton] at hpm
    rw [hg]
    rcases hpm with hpm | rfl
    · have hold := hsp p hpm k hk
      have hw : p.word ∈ s.placedWordsList := by
        rw [hinv.words_eq]
        exact List.mem_map.2 ⟨p, hpm, rfl⟩
      obtain ⟨hwd, hwl⟩ := hinv.from_dict p.word hw
      have hnb : s.grid (spanCell p.direction p.row p.col k).1
          (spanCell p.direction p.row p.col k).2 ≠ blank := by
        rw [hold]
        intro hb
        exact hblank p.word hwd (hb ▸ charAt_mem p.word k (by omega))
      rw [writeWord_keeps_letters s.grid gridSize word _ _ _ len _ _ hd hcan hnb]
      exact hold
    · exact writeWord_on_span s.grid word _ _ _ len k hd hk

/-! ## The random fill -/

theorem fill_letter_isLower (n : Nat) : (Char.ofNat ('a'.toNat + n % 26)).isLower = true := by
  have h : n % 26 < 26 := Nat.mod_lt _ (by omega)
  generalize n % 26 = m at h
  interval_cases m <;> decide

theorem isLower_ne_blank (c : Char) (h : c.isLower = true) : c ≠ blank := by
  rintro rfl
  revert h
  decide

theorem isLower_ne_consumed (c : Char) (h : c.isLower = true) : c ≠ consumed := by
  rintro rfl
  revert h
  decide

theorem fillCell_changes (rand : Nat → Nat) (g0 : Grid) (st : Grid × Nat) (i j : Nat)
    (a b : Int)
    (h : st.1 a b = g0 a b ∨ (g0 a b = blank ∧ (st.1 a b).isLower = true)) :
    (fillCell rand st i j).1 a b = g0 a b ∨
      (g0 a b = blank ∧ ((fillCell rand st i j).1 a b).isLower = true) := by
  unfold fillCell
  split
  · rename_i hb
    simp only [setCell]
    split
    · rename_i hab
      rw [← hab.1, ← hab.2] at hb
      refine Or.inr ⟨?_, fill_letter_isLower _⟩
      rcases h with h | h
      · rw [← h]; exact hb
      · exact h.1
    · exact h
  · exact h

theorem fillCell_nonblank (rand : Nat → Nat) (st : Grid × Nat) (i j : Nat) (a b : Int)
    (h : st.1 a b ≠ blank) : (fillCell rand st i j).1 a b ≠ blank := by
  unfold fillCell
  split
  · simp only [setCell]
    split
    · exact isLower_ne_blank _ (fill_letter_isLower _)
    · exact h
  · exact h

theorem fillCell_at (rand : Nat → Nat) (st : Grid × Nat) (i j : Nat) :
    (fillCell rand st i j).1 i j ≠ blank := by
  unfold fillCell
  split
  · simp only [setCell, and_self, if_true]
    exact isLower_ne_blank _ (fill_letter_isLower _)
  · assumption

theorem fillGrid_changes (rand : Nat → Nat) (gridSize : Nat) (g0 : Grid) (n : Nat)
    (a b : Int) :
    (fillGrid rand gridSize (g0, n)).1 a b = g0 a b ∨
      (g0 a b = blank ∧ ((fillGrid rand gridSize (g0, n)).1 a b).isLower = true) := by
  unfold fillGrid
  refine foldl_preserve _
    (fun st : Grid × Nat => st.1 a b = g0 a b ∨ (g0 a b = blank ∧ (st.1 a b).isLower = true))
    ?_ (List.range gridSize) (g0, n) (Or.inl rfl)
  intro st i hst
  exact foldl_preserve _
    (fun st : Grid × Nat => st.1 a b = g0 a b ∨ (g0 a b = blank ∧ (st.1 a b).isLower = true))
    (fun st' j hst' => fillCell_changes rand g0 st' i j a b hst') (List.range gridSize) st hst

theorem fillGrid_nonblank (rand : Nat → Nat) (gridSize : Nat) (g0 : Grid) (n : Nat)
    (a b : Int) (h : inGrid gridSize a b = true) :
    (fillGrid rand gridSize (g0, n)).1 a b ≠ blank := by
  obtain ⟨ha0, ha1, hb0, hb1⟩ := (inGrid_iff gridSize a b).1 h
  have hia : ((a.toNat : Nat) : Int) = a := Int.toNat_of_nonneg ha0
  have hib : ((b.toNat : Nat) : Int) = b := Int.toNat_of_nonneg hb0
  unfold fillGrid
  refine foldl_establish _ (fun st : Grid × Nat => st.1 a b ≠ blank) a.toNat ?_ ?_
    (List.range gridSize) (g0, n) (List.mem_range.2 (by omega))
  · intro st
    refine foldl_establish _ (fun st : Grid × Nat => st.1 a b ≠ blank) b.toNat ?_ ?_
      (List.range gridSize) st (List.mem_range.2 (by omega))
    · intro st'
      have := fillCell_at rand st' a.toNat b.toNat
      rwa [hia, hib] at this
    · intro st' j hst'
      exact fillCell_nonblank rand st' a.toNat j a b hst'
  · intro st i hst
    exact foldl_preserve _ (fun st : Grid × Nat => st.1 a b ≠ blank)
      (fun st' j hst' => fillCell_nonblank rand st' i j a b hst') (List.range gridSize) st hst

theorem populateGrid_ok (rand : Nat → Nat) (fuel : Nat) (grid : Grid) (gridSize : Nat)
    (words : List Word) (totalWords count len : Nat) (s : PlaceState)
    (h : populateGrid rand fuel grid gridSize words totalWords count len = .ok s) :
    ∃ s0, placeLoop rand words totalWords gridSize count len fuel
        (initState grid gridSize count) = .ok s0 ∧
      s.grid = (fillGrid rand gridSize (s0.grid, s0.draws)).1 ∧
      s.placedWords = s0.placedWords ∧ s.placedWordsList = s0.placedWordsList ∧
      s.placements = s0.placements := by
  unfold populateGrid at h
  split at h
  · exact absurd h (by simp)
  · rename_i s0 hs0
    cases h
    exact ⟨s0, hs0, rfl, rfl, rfl, rfl⟩

theorem placeLoop_inv (rand : Nat → Nat) (fuel : Nat) (grid : Grid) (gridSize : Nat)
    (words : List Word) (totalWords count len : Nat) (s0 : PlaceState)
    (h : placeLoop rand words totalWords gridSize count len fuel
      (initState grid gridSize count) = .ok s0) :
    PlaceInv words gridSize count len s0 :=
  placeLoop_induct rand words totalWords gridSize count len
    (PlaceInv words gridSize count len)
    (fun s s' hc hs hb => placeInv_step rand words totalWords gridSize count len s s' hc hs hb)
    fuel _ s0 (placeInv_init words grid gridSize count len) h

theorem placeLoop_spelled (rand : Nat → Nat) (fuel : Nat) (grid : Grid) (gridSize : Nat)
    (words : List Word) (totalWords count len : Nat) (s0 : PlaceState)
    (hblank : ∀ w, w ∈ words → blank ∉ w)
    (h : placeLoop rand words totalWords gridSize count len fuel
      (initState grid gridSize count) = .ok s0) :
    Spelled len s0.grid s0.placements := by
  have := placeLoop_induct rand words totalWords gridSize count len
    (fun s => PlaceInv words gridSize count len s ∧ Spelled len s.grid s.placements)
    (fun s s' hc hs hb =>
      ⟨placeInv_step rand words totalWords gridSize count len s s' hc hs.1 hb,
        spelled_step rand words totalWords gridSize count len s s' hblank hs.1 hs.2 hb⟩)
    fuel _ s0 ⟨placeInv_init words grid gridSize count len, ?_⟩ h
  · exact this.2
  · intro p hp
    simp [initState] at hp

/-! ## Runs of `populateGrid` -/

theorem loopBody_skip (rand : Nat → Nat) (words : List Word)
    (totalWords gridSize len : Nat) (s : PlaceState)
    (hpos : 0 < totalWords) (hle : totalWords ≤ words.length)
    (hnone : ∀ w, w ∈ words → w.length ≠ len) :
    loopBody rand words totalWords gridSize len s = .ok { s with draws := s.draws + 1 } := by
  have hidx : rand s.draws % totalWords < words.length :=
    Nat.lt_of_lt_of_le (Nat.mod_lt _ hpos) hle
  unfold loopBody
  rw [if_neg (by omega), List.getElem?_eq_getElem hidx]
  simp only
  rw [if_pos (hnone _ (List.getElem_mem hidx))]

theorem placeLoop_skips_forever (rand : Nat → Nat) (words : List Word)
    (totalWords gridSize count len : Nat)
    (hpos : 0 < totalWords) (hle : totalWords ≤ words.length)
    (hnone : ∀ w, w ∈ words → w.length ≠ len) (fuel : Nat) (s : PlaceState)
    (hc : loopCond count s = true) :
    placeLoop rand words totalWords gridSize count len fuel s = .error .outOfFuel := by
  induction fuel generalizing s with
  | zero =>
    unfold placeLoop
    rw [if_pos hc]
  | succ fuel ih =>
    unfold placeLoop
    rw [if_pos hc, loopBody_skip rand words totalWords gridSize len s hpos hle hnone]
    exact ih _ hc

theorem populateGrid_skips_forever (rand : Nat → Nat) (fuel : Nat) (grid : Grid)
    (gridSize : Nat) (words : List Word) (totalWords count len : Nat)
    (hpos : 0 < totalWords) (hle : totalWords ≤ words.length) (hcount : 0 < count)
    (hnone : ∀ w, w ∈ words → w.length ≠ len) :
    populateGrid rand fuel grid gridSize words totalWords count len = .error .outOfFuel := by
  have hc : loopCond count (initState grid gridSize count) = true := by
    simp only [loopCond, initState, Bool.and_eq_true, decide_eq_true_eq]
    omega
  unfold populateGrid
  rw [placeLoop_skips_forever rand words totalWords gridSize count len hpos hle hnone fuel _ hc]

/-- C1, at the failing input. On the dictionary `["dog"]` with one word of
length 2 requested, the placement loop of `populateGrid` never ends: whatever
the draws and however many iterations are allowed, the run is still inside
the loop, because the `continue` for a word of the wrong length skips the
decrement of `maxAttempts`. -/
theorem populateGrid_no_word_of_target_length_diverges (rand : Nat → Nat) (fuel : Nat)
    (grid : Grid) :
    populateGrid rand fuel grid 3 ["dog".toList] 1 1 2 = .error .outOfFuel :=
  populateGrid_skips_forever rand fuel grid 3 ["dog".toList] 1 1 2 (by decide) (by decide)
    (by decide) (by decide)

theorem populateGrid_inv (rand : Nat → Nat) (fuel : Nat) (grid : Grid) (gridSize : Nat)
    (words : List Word) (totalWords count len : Nat) (s : PlaceState)
    (h : populateGrid rand fuel grid gridSize words totalWords count len = .ok s) :
    s.placedWordsList = s.placements.map (fun p => p.word) ∧
    s.placedWordsList.Nodup ∧
    (∀ w, w ∈ s.placedWordsList → w ∈ words ∧ w.length = len) ∧
    s.placedWordsList.length ≤ count ∧
    (∀ p, p ∈ s.placements → p.direction < 8 ∧ ∀ k, k < len →
      inGrid gridSize (spanCell p.direction p.row p.col k).1
        (spanCell p.direction p.row p.col k).2 = true) := by
  obtain ⟨s0, hs0, _, hn, hl, hp⟩ :=
    populateGrid_ok rand fuel grid gridSize words totalWords count len s h
  have hinv := placeLoop_inv rand fuel grid gridSize words totalWords count len s0 hs0
  refine ⟨?_, ?_, ?_, ?_, ?_⟩
  · rw [hl, hp]; exact hinv.words_eq
  · rw [hl]; exact hinv.nodup
  · rw [hl]; exact hinv.from_dict
  · rw [hl, ← hinv.count_eq]; exact hinv.count_le
  · rw [hp]; exact hinv.in_bounds

theorem populateGrid_spelled (rand : Nat → Nat) (fuel : Nat) (grid : Grid) (gridSize : Nat)
    (words : List Word) (totalWords count len : Nat) (s : PlaceState)
    (hblank : ∀ w, w ∈ words → blank ∉ w)
    (h : populateGrid rand fuel grid gridSize words totalWords count len = .ok s) :
    Spelled len s.grid s.placements := by
  obtain ⟨s0, hs0, hg, _, _, hp⟩ :=
    populateGrid_ok rand fuel grid gridSize words totalWords count len s h
  have hinv := placeLoop_inv rand fuel grid gridSize words totalWords count len s0 hs0
  have hsp := placeLoop_spelled rand fuel grid gridSize words totalWords count len s0 hblank hs0
  intro p hpm k hk
  rw [hp] at hpm
  have hold := hsp p hpm k hk
  have hw : p.word ∈ s0.placedWordsList := by
    rw [hinv.words_eq]
    exact List.mem_map.2 ⟨p, hpm, rfl⟩
  obtain ⟨hwd, hwl⟩ := hinv.from_dict p.word hw
  have hnb : charAt p.word k ≠ blank := by
    intro hb
    exact hblank p.word hwd (hb ▸ charAt_mem p.word k (by omega))
  rw [hg]
  rcases fillGrid_changes rand gridSize s0.grid s0.draws
    (spanCell p.direction p.row p.col k).1 (spanCell p.direction p.row p.col k).2 with hf | hf
  · rw [hf]; exact hold
  · rw [hold] at hf
    exact absurd hf.1 hnb

/-- C7. When `populateGrid` returns on a dictionary whose words contain no
blank, every word recorded as placed is spelled character by character by the
final grid along the span where it was written, so two placed words that
cross hold the same character at the shared cell. -/
theorem populateGrid_placed_words_intact (rand : Nat → Nat) (fuel : Nat) (grid : Grid)
    (gridSize : Nat) (words : List Word) (totalWords count len : Nat) (s : PlaceState)
    (hblank : ∀ w, w ∈ words → blank ∉ w)
    (h : populateGrid rand fuel grid gridSize words totalWords count len = .ok s) :
    s.placedWordsList = s.placements.map (fun p => p.word) ∧
    (∀ p, p ∈ s.placements → p.word.length = len ∧ ∀ k, k < p.word.length →
      s.grid (spanCell p.direction p.row p.col k).1 (spanCell p.direction p.row p.col k).2 =
        charAt p.word k) ∧
    (∀ p q k k', p ∈ s.placements → q ∈ s.placements → k < p.word.length →
      k' < q.word.length →
      spanCell p.direction p.row p.col k = spanCell q.direction q.row q.col k' →
      charAt p.word k = charAt q.word k') := by
  obtain ⟨hw, _, hdict, _, _⟩ :=
    populateGrid_inv rand fuel grid gridSize words totalWords count len s h
  have hsp := populateGrid_spelled rand fuel grid gridSize words totalWords count len s hblank h
  have hlen : ∀ p, p ∈ s.placements → p.word.length = len := by
    intro p hp
    exact (hdict p.word (by rw [hw]; exact List.mem_map.2 ⟨p, hp, rfl⟩)).2
  refine ⟨hw, ?_, ?_⟩
  · intro p hp
    refine ⟨hlen p hp, ?_⟩
    intro k hk
    exact hsp p hp k (by rw [← hlen p hp]; exact hk)
  · intro p q k k' hp hq hk hk' hcell
    rw [← hsp p hp k (by rw [← hlen p hp]; exact hk),
      ← hsp q hq k' (by rw [← hlen q hq]; exact hk'), hcell]

/-- Witness for C7: the example run places `cat` and `tag`, which cross at
the `t` of cell (0, 2). -/
theorem populateGrid_placed_words_intact_witness :
    (∀ w, w ∈ demoWords → blank ∉ w) ∧
    populateGrid demoRand 2 catGrid 3 demoWords 3 2 3 = .ok demoState ∧
    demoState.placedWordsList = ["cat".toList, "tag".toList] ∧
    demoState.placedWordsList = demoState.placements.map (fun p => p.word) ∧
    (∀ p, p ∈ demoState.placements → p.word.length = 3 ∧ ∀ k, k < p.word.length →
      demoState.grid (spanCell p.direction p.row p.col k).1
        (spanCell p.direction p.row p.col k).2 = charAt p.word k) ∧
    (∀ p q k k', p ∈ demoState.placements → q ∈ demoState.placements → k < p.word.length →
      k' < q.word.length →
      spanCell p.direction p.row p.col k = spanCell q.direction q.row q.col k' →
      charAt p.word k = charAt q.word k') :=
  ⟨by decide, rfl, by decide,
    populateGrid_placed_words_intact demoRand 2 catGrid 3 demoWords 3 2 3 demoState
      (by decide) rfl⟩

theorem loopBody_out_of_bounds (rand : Nat → Nat) (words : List Word)
    (totalWords gridSize len : Nat) (st st' : PlaceState)
    (h : loopBody rand words totalWords gridSize len st = .ok st')
    (hout : ∃ k, k < len ∧
      inGrid gridSize
        (spanCell (rand (st.draws + 3) % 8) ((rand (st.draws + 1) % gridSize : Nat) : Int)
          ((rand (st.draws + 2) % gridSize : Nat) : Int) k).1
        (spanCell (rand (st.draws + 3) % 8) ((rand (st.draws + 1) % gridSize : Nat) : Int)
          ((rand (st.draws + 2) % gridSize : Nat) : Int) k).2 = false) :
    st'.grid = st.grid ∧ st'.placements = st.placements ∧
      st'.placedWordsList = st.placedWordsList := by
  rcases loopBody_ok rand words totalWords gridSize len st st' h with
    ⟨hg, _, hl, hp⟩ | ⟨word, _, _, _, hcan, _⟩
  · exact ⟨hg, hp, hl⟩
  · exfalso
    obtain ⟨k, hk, hfalse⟩ := hout
    have hd : rand (st.draws + 3) % 8 < 8 := Nat.mod_lt _ (by omega)
    have := ((canPlace_iff _ _ _ _ _ _ _ hd).1 hcan k hk).1
    rw [this] at hfalse
    exact Bool.noConfusion hfalse

/-- C9. When `populateGrid` returns, the words recorded as placed are pairwise
distinct, each is an element of the dictionary, each has length exactly
`targetWordLength`, and there are at most `targetWordCount` of them. -/
theorem populateGrid_placed_words_distinct (rand : Nat → Nat) (fuel : Nat) (grid : Grid)
    (gridSize : Nat) (words : List Word) (totalWords count len : Nat) (s : PlaceState)
    (h : populateGrid rand fuel grid gridSize words totalWords count len = .ok s) :
    s.placedWordsList.Nodup ∧
    (∀ w, w ∈ s.placedWordsList → w ∈ words) ∧
    (∀ w, w ∈ s.placedWordsList → w.length = len) ∧
    s.placedWordsList.length ≤ count := by
  obtain ⟨_, hnd, hdict, hcount, _⟩ :=
    populateGrid_inv rand fuel grid gridSize words totalWords count len s h
  exact ⟨hnd, fun w hw => (hdict w hw).1, fun w hw => (hdict w hw).2, hcount⟩

/-- Witness for C9: the example run records `cat` and `tag`. -/
theorem populateGrid_placed_words_distinct_witness :
    populateGrid demoRand 2 catGrid 3 demoWords 3 2 3 = .ok demoState ∧
    demoState.placedWordsList = ["cat".toList, "tag".toList] ∧
    demoState.placedWordsList.Nodup ∧
    (∀ w, w ∈ demoState.placedWordsList → w ∈ demoWords) ∧
    (∀ w, w ∈ demoState.placedWordsList → w.length = 3) ∧
    demoState.placedWordsList.length ≤ 2 :=
  ⟨rfl, by decide,
    populateGrid_placed_words_distinct demoRand 2 catGrid 3 demoWords 3 2 3 demoState rfl⟩

theorem checkWordInGrid_cell (word : Word) (grid : Grid) (gridSize : Nat) (a b : Int) :
    (checkWordInGrid word grid gridSize).2 a b = grid a b ∨
      (checkWordInGrid word grid gridSize).2 a b = consumed := by
  cases hr : (checkWordInGrid word grid gridSize).1 with
  | false =>
    rw [(checkWordInGrid_false word grid gridSize hr).1]
    exact Or.inl rfl
  | true =>
    obtain ⟨i, j, d, _, _, _, _, hmk, _⟩ := checkWordInGrid_true word grid gridSize hr
    rw [hmk, markLoop_apply]
    split
    · exact Or.inr rfl
    · exact Or.inl rfl

theorem afterGuesses_cells (gridSize : Nat) (guesses : List Word) (grid : Grid) (a b : Int)
    (h : (grid a b).isLower = true ∨ grid a b = consumed) :
    (afterGuesses grid gridSize guesses a b).isLower = true ∨
      afterGuesses grid gridSize guesses a b = consumed := by
  induction guesses generalizing grid with
  | nil => exact h
  | cons w rest ih =>
    unfold afterGuesses
    apply ih
    rcases checkWordInGrid_cell w grid gridSize a b with hc | hc
    · rw [hc]; exact h
    · exact Or.inr hc

theorem afterGuesses_none_found (gridSize : Nat) (guesses : List Word) (grid : Grid)
    (h : anyFound grid gridSize guesses = false) :
    afterGuesses grid gridSize guesses = grid := by
  induction guesses generalizing grid with
  | nil => rfl
  | cons w rest ih =>
    unfold anyFound at h
    rw [Bool.or_eq_false_iff] at h
    unfold afterGuesses
    have hsame := (checkWordInGrid_false w grid gridSize h.1).1
    rw [hsame] at h ⊢
    exact ih grid h.2

theorem populateGrid_lowercase (rand : Nat → Nat) (fuel : Nat) (grid : Grid) (gridSize : Nat)
    (words : List Word) (totalWords count len : Nat) (s : PlaceState)
    (hlow : ∀ w, w ∈ words → w.length = len → ∀ c, c ∈ w → c.isLower = true)
    (h : populateGrid rand fuel grid gridSize words totalWords count len = .ok s)
    (a b : Int) (hab : inGrid gridSize a b = true) : (s.grid a b).isLower = true := by
  obtain ⟨s0, hs0, hg, _, _, _⟩ :=
    populateGrid_ok rand fuel grid gridSize words totalWords count len s h
  have hinv := placeLoop_inv rand fuel grid gridSize words totalWords count len s0 hs0
  have hnb := fillGrid_nonblank rand gridSize s0.grid s0.draws a b hab
  rw [hg]
  rcases fillGrid_changes rand gridSize s0.grid s0.draws a b with hf | hf
  · rw [hf] at hnb ⊢
    rcases hinv.cells a b hab with hc | ⟨w, hw, hwl, hc⟩
    · exact absurd hc hnb
    · exact hlow w hw hwl _ hc
  · exact hf.2

/-- Counterexample to C10 as stated: on the dictionary `["CAT"]` the grid
returned by `populateGrid` holds `'C'` at cell (0, 0), which is neither a
lowercase letter nor the consumed marker. -/
theorem populateGrid_uppercase_cell :
    (populateGrid (fun _ => 0) 1 catGrid 3 ["CAT".toList] 1 1 3).toOption.map
      (fun s => (s.grid 0 0, (s.grid 0 0).isLower, s.grid 0 0 == consumed)) =
    some ('C', false, false) := by
  decide

/-- C10, amended. When the dictionary words of the target length consist of
lowercase letters only, every cell of a grid returned by `populateGrid` holds
a lowercase letter (never the blank, never `'*'`); after any sequence of
`checkWordInGrid` calls every cell holds a lowercase letter or `'*'`; and a
cell holds `'*'` only if some call of the sequence returned `true`. -/
theorem populateGrid_grid_invariant (rand : Nat → Nat) (fuel : Nat) (grid : Grid)
    (gridSize : Nat) (words : List Word) (totalWords count len : Nat) (s : PlaceState)
    (hlow : ∀ w, w ∈ words → w.length = len → ∀ c, c ∈ w → c.isLower = true)
    (h : populateGrid rand fuel grid gridSize words totalWords count len = .ok s) :
    (∀ a b, inGrid gridSize a b = true →
      (s.grid a b).isLower = true ∧ s.grid a b ≠ blank ∧ s.grid a b ≠ consumed) ∧
    (∀ guesses a b, inGrid gridSize a b = true →
      ((afterGuesses s.grid gridSize guesses a b).isLower = true ∨
        afterGuesses s.grid gridSize guesses a b = consumed) ∧
      afterGuesses s.grid gridSize guesses a b ≠ blank) ∧
    (∀ guesses a b, inGrid gridSize a b = true →
      afterGuesses s.grid gridSize guesses a b = consumed →
      anyFound s.grid gridSize guesses = true) := by
  have hl := populateGrid_lowercase rand fuel grid gridSize words totalWords count len s hlow h
  refine ⟨?_, ?_, ?_⟩
  · intro a b hab
    exact ⟨hl a b hab, isLower_ne_blank _ (hl a b hab), isLower_ne_consumed _ (hl a b hab)⟩
  · intro guesses a b hab
    have hc := afterGuesses_cells gridSize guesses s.grid a b (Or.inl (hl a b hab))
    refine ⟨hc, ?_⟩
    rcases hc with hc | hc
    · exact isLower_ne_blank _ hc
    · rw [hc]; decide
  · intro guesses a b hab hstar
    by_contra hnone
    have hf : anyFound s.grid gridSize guesses = false := by simpa using hnone
    rw [afterGuesses_none_found gridSize guesses s.grid hf] at hstar
    exact isLower_ne_consumed _ (hl a b hab) hstar

/-- Witness for C10 (amended): the example run on the lowercase dictionary,
followed by the guesses `dog` (not found) and `cat` (found). -/
theorem populateGrid_grid_invariant_witness :
    (∀ w, w ∈ demoWords → w.length = 3 → ∀ c, c ∈ w → c.isLower = true) ∧
    populateGrid demoRand 2 catGrid 3 demoWords 3 2 3 = .ok demoState ∧
    afterGuesses demoState.grid 3 ["dog".toList, "cat".toList] 0 0 = consumed ∧
    (∀ a b, inGrid 3 a b = true →
      (demoState.grid a b).isLower = true ∧ demoState.grid a b ≠ blank ∧
        demoState.grid a b ≠ consumed) ∧
    (∀ guesses a b, inGrid 3 a b = true →
      ((afterGuesses demoState.grid 3 guesses a b).isLower = true ∨
        afterGuesses demoState.grid 3 guesses a b = consumed) ∧
      afterGuesses demoState.grid 3 guesses a b ≠ blank) ∧
    (∀ guesses a b, inGrid 3 a b = true →
      afterGuesses demoState.grid 3 guesses a b = consumed →
      anyFound demoState.grid 3 guesses = true) :=
  ⟨by decide, rfl, by decide,
    populateGrid_grid_invariant demoRand 2 catGrid 3 demoWords 3 2 3 demoState
      (by decide) rfl⟩

/-! ## Dictionary lookup and score ranking -/

theorem isValidWord_iff (word : Word) (dictionary : WordArray) (dictionarySize : Nat) :
    isValidWord word dictionary dictionarySize = true ↔
      ∃ i, i < dictionarySize ∧ dictionary i = word := by
  unfold isValidWord
  simp only [List.any_eq_true, List.mem_range, beq_iff_eq]

/-- C14. `isValidWord` returns `true` exactly when some index below the size
holds an entry equal to the word, character for character and without any
case normalisation: a dictionary holding only `cat` does not contain `CAT`.
The function is read-only: its value is the boolean alone. -/
theorem isValidWord_exact_membership :
    (∀ (word : Word) (dictionary : WordArray) (dictionarySize : Nat),
      isValidWord word dictionary dictionarySize = true ↔
        ∃ i, i < dictionarySize ∧ dictionary i = word) ∧
    isValidWord "cat".toList (arrayOf ["cat".toList]) 1 = true ∧
    isValidWord "CAT".toList (arrayOf ["cat".toList]) 1 = false :=
  ⟨isValidWord_iff, by decide, by decide⟩

theorem shiftLoop_five (i : Nat) (a0 a1 a2 a3 a4 : Int) :
    shiftLoop i 4 [a0, a1, a2, a3, a4] =
      if i = 0 then [a0, a0, a1, a2, a3]
      else if i = 1 then [a0, a1, a1, a2, a3]
      else if i = 2 then [a0, a1, a2, a2, a3]
      else if i = 3 then [a0, a1, a2, a3, a3]
      else [a0, a1, a2, a3, a4] := by
  rcases i with _ | _ | _ | _ | i <;> simp [shiftLoop, List.set]

theorem insertLoop_unfold (c : Int) (i n : Nat) (t : List Int) :
    insertLoop c i (n + 1) t =
      if c > t.getD i 0 then (shiftLoop i 4 t).set i c else insertLoop c (i + 1) n t := rfl

theorem compareAndUpdateScores_five (c a0 a1 a2 a3 a4 : Int) :
    compareAndUpdateScores c [a0, a1, a2, a3, a4] =
      if c > a0 then [c, a0, a1, a2, a3]
      else if c > a1 then [a0, c, a1, a2, a3]
      else if c > a2 then [a0, a1, c, a2, a3]
      else if c > a3 then [a0, a1, a2, c, a3]
      else if c > a4 then [a0, a1, a2, a3, c]
      else [a0, a1, a2, a3, a4] := by
  unfold compareAndUpdateScores
  rw [insertLoop_unfold, insertLoop_unfold, insertLoop_unfold, insertLoop_unfold,
    insertLoop_unfold, shiftLoop_five, shiftLoop_five, shiftLoop_five, shiftLoop_five,
    shiftLoop_five]
  simp [insertLoop, List.set]


theorem length_five (t : List Int) (ht : t.length = 5) :
    ∃ a0 a1 a2 a3 a4, t = [a0, a1, a2, a3, a4] := by
  match t, ht with
  | [a0, a1, a2, a3, a4], _ => exact ⟨a0, a1, a2, a3, a4, rfl⟩

/-- C12. On a list `t` of 5 integers, the insertion loop of
`compareAndUpdateScores` yields, when `i` is the first index with
`c > t[i]`, the list `t[0..i)` followed by `c` followed by `t[i..4)`, and
yields `t` itself when there is no such index. -/
theorem compareAndUpdateScores_inserts_at_first (t : List Int) (c : Int)
    (ht : t.length = 5) :
    (∀ i, i < 5 → c > t.getD i 0 → (∀ i', i' < i → ¬ c > t.getD i' 0) →
      compareAndUpdateScores c t = insertedAt t c i) ∧
    ((∀ i, i < 5 → ¬ c > t.getD i 0) → compareAndUpdateScores c t = t) := by
  obtain ⟨a0, a1, a2, a3, a4, rfl⟩ := length_five t ht
  rw [compareAndUpdateScores_five]
  constructor
  · intro i hi hc hfirst
    interval_cases i
    · have h0 : c > a0 := by simpa using hc
      simp [insertedAt, h0]
    · have h0 : ¬ c > a0 := by simpa using hfirst 0 (by omega)
      have h1 : c > a1 := by simpa using hc
      simp [insertedAt, h0, h1]
    · have h0 : ¬ c > a0 := by simpa using hfirst 0 (by omega)
      have h1 : ¬ c > a1 := by simpa using hfirst 1 (by omega)
      have h2 : c > a2 := by simpa using hc
      simp [insertedAt, h0, h1, h2]
    · have h0 : ¬ c > a0 := by simpa using hfirst 0 (by omega)
      have h1 : ¬ c > a1 := by simpa using hfirst 1 (by omega)
      have h2 : ¬ c > a2 := by simpa using hfirst 2 (by omega)
      have h3 : c > a3 := by simpa using hc
      simp [insertedAt, h0, h1, h2, h3]
    · have h0 : ¬ c > a0 := by simpa using hfirst 0 (by omega)
      have h1 : ¬ c > a1 := by simpa using hfirst 1 (by omega)
      have h2 : ¬ c > a2 := by simpa using hfirst 2 (by omega)
      have h3 : ¬ c > a3 := by simpa using hfirst 3 (by omega)
      have h4 : c > a4 := by simpa using hc
      simp [insertedAt, h0, h1, h2, h3, h4]
  · intro hnone
    have h0 : ¬ c > a0 := by simpa using hnone 0 (by omega)
    have h1 : ¬ c > a1 := by simpa using hnone 1 (by omega)
    have h2 : ¬ c > a2 := by simpa using hnone 2 (by omega)
    have h3 : ¬ c > a3 := by simpa using hnone 3 (by omega)
    have h4 : ¬ c > a4 := by simpa using hnone 4 (by omega)
    simp [h0, h1, h2, h3, h4]

/-- Witness for C12: the list 50, 40, 30, 20, 10 with the candidates 35 and 5. -/
theorem compareAndUpdateScores_inserts_at_first_witness :
    compareAndUpdateScores 35 [50, 40, 30, 20, 10] = insertedAt [50, 40, 30, 20, 10] 35 2 ∧
    insertedAt [50, 40, 30, 20, 10] 35 2 = [50, 40, 35, 30, 20] ∧
    compareAndUpdateScores 5 [50, 40, 30, 20, 10] = [50, 40, 30, 20, 10] :=
  ⟨(compareAndUpdateScores_inserts_at_first [50, 40, 30, 20, 10] 35 rfl).1 2 (by decide)
      (by decide) (by decide),
    by decide,
    (compareAndUpdateScores_inserts_at_first [50, 40, 30, 20, 10] 5 rfl).2 (by decide)⟩

/-- C13. On a list of 5 integers sorted in descending order, the insertion
loop of `compareAndUpdateScores` yields a list of length 5, sorted in
descending order, that holds the five largest of the six values: the six
values are the new list together with one value `m` that is at most every
entry kept. -/
theorem compareAndUpdateScores_keeps_top_five (t : List Int) (c : Int)
    (ht : t.length = 5) (hs : t.Sorted (fun x y => x ≥ y)) :
    (compareAndUpdateScores c t).length = 5 ∧
    (compareAndUpdateScores c t).Sorted (fun x y => x ≥ y) ∧
    ∃ m, (c :: t).Perm (compareAndUpdateScores c t ++ [m]) ∧
      ∀ x, x ∈ compareAndUpdateScores c t → m ≤ x := by
  obtain ⟨a0, a1, a2, a3, a4, rfl⟩ := length_five t ht
  simp only [List.Sorted, List.pairwise_cons, List.mem_cons, List.mem_singleton,
    forall_eq_or_imp, forall_eq, List.not_mem_nil, List.Pairwise.nil] at hs
  rw [compareAndUpdateScores_five]
  split_ifs with h0 h1 h2 h3 h4
  · refine ⟨rfl, by simp [List.Sorted]; omega, a4, ?_, by simp; omega⟩
    exact List.Perm.refl _
  · refine ⟨rfl, by simp [List.Sorted]; omega, a4, ?_, by simp; omega⟩
    exact (@List.perm_middle Int c [a0] [a1, a2, a3, a4]).symm
  · refine ⟨rfl, by simp [List.Sorted]; omega, a4, ?_, by simp; omega⟩
    exact (@List.perm_middle Int c [a0, a1] [a2, a3, a4]).symm
  · refine ⟨rfl, by simp [List.Sorted]; omega, a4, ?_, by simp; omega⟩
    exact (@List.perm_middle Int c [a0, a1, a2] [a3, a4]).symm
  · refine ⟨rfl, by simp [List.Sorted]; omega, a4, ?_, by simp; omega⟩
    exact (@List.perm_middle Int c [a0, a1, a2, a3] [a4]).symm
  · refine ⟨rfl, by simp [List.Sorted]; omega, c, ?_, by simp; omega⟩
    exact (@List.perm_middle Int c [a0, a1, a2, a3, a4] []).symm

/-- Witness for C13: the list 50, 40, 30, 20, 10 with the candidate 35. -/
theorem compareAndUpdateScores_keeps_top_five_witness :
    [50, 40, 30, 20, 10].Sorted (fun x y : Int => x ≥ y) ∧
    (compareAndUpdateScores 35 [50, 40, 30, 20, 10]).length = 5 ∧
    (compareAndUpdateScores 35 [50, 40, 30, 20, 10]).Sorted (fun x y => x ≥ y) ∧
    ∃ m, ((35 : Int) :: [50, 40, 30, 20, 10]).Perm
        (compareAndUpdateScores 35 [50, 40, 30, 20, 10] ++ [m]) ∧
      ∀ x, x ∈ compareAndUpdateScores 35 [50, 40, 30, 20, 10] → m ≤ x :=
  ⟨by decide, compareAndUpdateScores_keeps_top_five [50, 40, 30, 20, 10] 35 rfl (by decide)⟩

/-! ## Idempotence of the fill and exactness of the bound check -/

theorem foldl_noop {σ α : Type} (f : σ → α → σ) (l : List α) (init : σ)
    (h : ∀ y, y ∈ l → f init y = init) : l.foldl f init = init := by
  induction l with
  | nil => rfl
  | cons y rest ih =>
    rw [List.foldl_cons, h y (List.mem_cons_self y rest)]
    exact ih (fun z hz => h z (List.mem_cons_of_mem y hz))

theorem fillCell_noop (rand : Nat → Nat) (st : Grid × Nat) (i j : Nat)
    (h : st.1 i j ≠ blank) : fillCell rand st i j = st := by
  unfold fillCell
  rw [if_neg h]

theorem fillGrid_noop (rand : Nat → Nat) (gridSize : Nat) (g : Grid) (n : Nat)
    (h : ∀ a b, inGrid gridSize a b = true → g a b ≠ blank) :
    fillGrid rand gridSize (g, n) = (g, n) := by
  unfold fillGrid
  apply foldl_noop
  intro i hi
  apply foldl_noop
  intro j hj
  apply fillCell_noop
  apply h
  rw [inGrid_iff]
  have hi' := List.mem_range.1 hi
  have hj' := List.mem_range.1 hj
  omega

/-- C15. The random-fill step of `populateGrid` leaves no blank cell in the
grid; on a grid without blank cells it returns the grid unchanged and makes
no draw, whatever the stream of draws; hence filling twice equals filling
once. -/
theorem fillGrid_idempotent (rand : Nat → Nat) (gridSize : Nat) (grid : Grid) (n : Nat) :
    (∀ a b, inGrid gridSize a b = true → (fillGrid rand gridSize (grid, n)).1 a b ≠ blank) ∧
    (∀ (rand' : Nat → Nat) (g : Grid) (n' : Nat),
      (∀ a b, inGrid gridSize a b = true → g a b ≠ blank) →
      fillGrid rand' gridSize (g, n') = (g, n')) ∧
    (∀ rand' : Nat → Nat,
      fillGrid rand' gridSize (fillGrid rand gridSize (grid, n)) =
        fillGrid rand gridSize (grid, n)) := by
  refine ⟨fun a b hab => fillGrid_nonblank rand gridSize grid n a b hab,
    fun rand' g n' h => fillGrid_noop rand' gridSize g n' h, ?_⟩
  intro rand'
  exact fillGrid_noop rand' gridSize (fillGrid rand gridSize (grid, n)).1
    (fillGrid rand gridSize (grid, n)).2
    (fun a b hab => fillGrid_nonblank rand gridSize grid n a b hab)

theorem matches_congr (word : Word) (g g' : Grid) (gridSize i j d : Nat)
    (h : ∀ a b, inGrid gridSize a b = true → g a b = g' a b)
    (hM : Matches word g gridSize i j d) : Matches word g' gridSize i j d := by
  intro k hk
  obtain ⟨hin, heq⟩ := hM k hk
  exact ⟨hin, by rw [← h _ _ hin]; exact heq⟩

theorem checkWordInGrid_fst_congr (word : Word) (g g' : Grid) (gridSize : Nat)
    (h : ∀ a b, inGrid gridSize a b = true → g a b = g' a b) :
    (checkWordInGrid word g gridSize).1 = (checkWordInGrid word g' gridSize).1 := by
  cases h1 : (checkWordInGrid word g gridSize).1 with
  | true =>
    obtain ⟨i, j, d, hi, hj, hd, hM, _⟩ := checkWordInGrid_true word g gridSize h1
    have hM' := matches_congr word g g' gridSize i j d h hM
    cases h2 : (checkWordInGrid word g' gridSize).1 with
    | true => rfl
    | false => exact absurd hM' ((checkWordInGrid_false word g' gridSize h2).2 i j d hi hj hd)
  | false =>
    cases h2 : (checkWordInGrid word g' gridSize).1 with
    | false => rfl
    | true =>
      obtain ⟨i, j, d, hi, hj, hd, hM, _⟩ := checkWordInGrid_true word g' gridSize h2
      have hM' := matches_congr word g' g gridSize i j d (fun a b hab => (h a b hab).symm) hM
      exact absurd hM' ((checkWordInGrid_false word g gridSize h1).2 i j d hi hj hd)

theorem checkWordInGrid_outside (word : Word) (grid : Grid) (gridSize : Nat) (a b : Int)
    (hout : inGrid gridSize a b = false) :
    (checkWordInGrid word grid gridSize).2 a b = grid a b := by
  cases h1 : (checkWordInGrid word grid gridSize).1 with
  | false => rw [(checkWordInGrid_false word grid gridSize h1).1]
  | true =>
    obtain ⟨i, j, d, _, _, _, hM, hmk, _⟩ := checkWordInGrid_true word grid gridSize h1
    rw [hmk, markLoop_apply, if_neg]
    rintro ⟨k, hk, hcell⟩
    have hin := (hM k hk).1
    rw [hcell] at hin
    rw [hin] at hout
    exact Bool.noConfusion hout

/-- C16. For an origin `(i, j)` inside the grid, a direction `d` and a word
length `len`, the bound check of `checkWordInGrid` lets the candidate through
exactly when every cell `(i + k*di, j + k*dj)`, `k < len`, lies in
`[0, gridSize) x [0, gridSize)`. Consequently the call writes no cell outside
the grid, and its result does not depend on what lies outside the grid. -/
theorem boundsSkip_exact (d i j len gridSize : Nat) (hd : d < 8) (hi : i < gridSize)
    (hj : j < gridSize) :
    (boundsSkip d i j len gridSize = false ↔
      ∀ k, k < len →
        0 ≤ (spanCell d i j k).1 ∧ (spanCell d i j k).1 < gridSize ∧
        0 ≤ (spanCell d i j k).2 ∧ (spanCell d i j k).2 < gridSize) ∧
    (∀ (word : Word) (grid : Grid) (a b : Int), inGrid gridSize a b = false →
      (checkWordInGrid word grid gridSize).2 a b = grid a b) ∧
    (∀ (word : Word) (g g' : Grid), (∀ a b, inGrid gridSize a b = true → g a b = g' a b) →
      (checkWordInGrid word g gridSize).1 = (checkWordInGrid word g' gridSize).1) := by
  refine ⟨?_, fun word grid a b hout => checkWordInGrid_outside word grid gridSize a b hout,
    fun word g g' h => checkWordInGrid_fst_congr word g g' gridSize h⟩
  rw [boundsSkip_false_iff d i j len gridSize hd hi hj]
  constructor
  · intro h k hk
    exact (inGrid_iff gridSize _ _).1 (h k hk)
  · intro h k hk
    exact (inGrid_iff gridSize _ _).2 (h k hk)

/-- Witness for C16: grid size 3 and word length 3, from (0, 2) going left
(let through) and from (0, 2) going right (skipped). -/
theorem boundsSkip_exact_witness :
    boundsSkip 1 (0 : Nat) (2 : Nat) (3 : Nat) (3 : Nat) = false ∧
    boundsSkip 0 (0 : Nat) (2 : Nat) (3 : Nat) (3 : Nat) = true ∧
    (boundsSkip 1 (0 : Nat) (2 : Nat) (3 : Nat) (3 : Nat) = false ↔
      ∀ k, k < 3 →
        0 ≤ (spanCell 1 (0 : Nat) (2 : Nat) k).1 ∧ (spanCell 1 (0 : Nat) (2 : Nat) k).1 < (3 : Nat) ∧
        0 ≤ (spanCell 1 (0 : Nat) (2 : Nat) k).2 ∧
        (spanCell 1 (0 : Nat) (2 : Nat) k).2 < (3 : Nat)) :=
  ⟨by decide, by decide, (boundsSkip_exact 1 0 2 3 3 (by decide) (by decide) (by decide)).1⟩

/-! ## Placement followed by search -/

theorem loopBody_origins (rand : Nat → Nat) (words : List Word)
    (totalWords gridSize len : Nat) (s s' : PlaceState)
    (h : loopBody rand words totalWords gridSize len s = .ok s')
    (hs : ∀ p, p ∈ s.placements → inGrid gridSize p.row p.col = true) :
    ∀ p, p ∈ s'.placements → inGrid gridSize p.row p.col = true := by
  unfold loopBody at h
  split at h
  · exact absurd h (by simp)
  · split at h
    · exact absurd h (by simp)
    · split at h
      · cases h; exact hs
      · split at h
        · cases h; exact hs
        · split at h
          · exact absurd h (by simp)
          · rename_i hsize
            have hpos : 0 < gridSize := Nat.pos_of_ne_zero hsize
            simp only at h
            split at h
            · split at h
              · exact absurd h (by simp)
              · cases h
                intro p hp
                simp only [List.mem_append, List.mem_singleton] at hp
                rcases hp with hp | rfl
                · exact hs p hp
                · rw [inGrid_iff]
                  have h1 := Nat.mod_lt (rand (s.draws + 1)) hpos
                  have h2 := Nat.mod_lt (rand (s.draws + 2)) hpos
                  simp only
                  generalize rand (s.draws + 1) % gridSize = r1 at h1
                  generalize rand (s.draws + 2) % gridSize = r2 at h2
                  omega
            · cases h; exact hs

theorem populateGrid_origins (rand : Nat → Nat) (fuel : Nat) (grid : Grid) (gridSize : Nat)
    (words : List Word) (totalWords count len : Nat) (s : PlaceState)
    (h : populateGrid rand fuel grid gridSize words totalWords count len = .ok s) :
    ∀ p, p ∈ s.placements → inGrid gridSize p.row p.col = true := by
  obtain ⟨s0, hs0, _, _, _, hp⟩ :=
    populateGrid_ok rand fuel grid gridSize words totalWords count len s h
  rw [hp]
  refine placeLoop_induct rand words totalWords gridSize count len
    (fun st => ∀ p, p ∈ st.placements → inGrid gridSize p.row p.col = true)
    (fun st st' _ hst hb => loopBody_origins rand words totalWords gridSize len st st' hb hst)
    fuel _ s0 ?_ hs0
  intro p hp0
  simp [initState] at hp0

theorem populateGrid_round_trip (rand : Nat → Nat) (fuel : Nat) (grid : Grid)
    (gridSize : Nat) (words : List Word) (totalWords count len : Nat) (s : PlaceState)
    (hblank : ∀ w, w ∈ words → blank ∉ w)
    (h : populateGrid rand fuel grid gridSize words totalWords count len = .ok s)
    (w : Word) (hw : w ∈ s.placedWordsList) :
    (checkWordInGrid w s.grid gridSize).1 = true := by
  obtain ⟨hwords, _, hdict, _, hb⟩ :=
    populateGrid_inv rand fuel grid gridSize words totalWords count len s h
  have hsp := populateGrid_spelled rand fuel grid gridSize words totalWords count len s hblank h
  have horig := populateGrid_origins rand fuel grid gridSize words totalWords count len s h
  have hlen : w.length = len := (hdict w hw).2
  rw [hwords] at hw
  obtain ⟨p, hp, rfl⟩ := List.mem_map.1 hw
  obtain ⟨hr0, hr1, hc0, hc1⟩ := (inGrid_iff gridSize p.row p.col).1 (horig p hp)
  have hi : ((p.row.toNat : Nat) : Int) = p.row := Int.toNat_of_nonneg hr0
  have hj : ((p.col.toNat : Nat) : Int) = p.col := Int.toNat_of_nonneg hc0
  have hM : Matches p.word s.grid gridSize p.row.toNat p.col.toNat p.direction := by
    intro k hk
    rw [hi, hj]
    refine ⟨(hb p hp).2 k (by omega), ?_⟩
    rw [hsp p hp k (by omega)]
  by_contra hne
  have hf : (checkWordInGrid p.word s.grid gridSize).1 = false := by simpa using hne
  exact (checkWordInGrid_false p.word s.grid gridSize hf).2 p.row.toNat p.col.toNat p.direction
    (by omega) (by omega) (hb p hp).1 hM

/-- C17. When `populateGrid` returns on a dictionary whose words contain no
blank, `checkWordInGrid` on the returned grid returns `true` for every word
recorded as placed. -/
theorem populateGrid_then_checkWordInGrid (rand : Nat → Nat) (fuel : Nat) (grid : Grid)
    (gridSize : Nat) (words : List Word) (totalWords count len : Nat) (s : PlaceState)
    (hblank : ∀ w, w ∈ words → blank ∉ w)
    (h : populateGrid rand fuel grid gridSize words totalWords count len = .ok s) :
    ∀ w, w ∈ s.placedWordsList → (checkWordInGrid w s.grid gridSize).1 = true :=
  fun w hw =>
    populateGrid_round_trip rand fuel grid gridSize words totalWords count len s hblank h w hw

/-- Witness for C17: the example run, which places `cat` and `tag`. -/
theorem populateGrid_then_checkWordInGrid_witness :
    (∀ w, w ∈ demoWords → blank ∉ w) ∧
    populateGrid demoRand 2 catGrid 3 demoWords 3 2 3 = .ok demoState ∧
    demoState.placedWordsList = ["cat".toList, "tag".toList] ∧
    ∀ w, w ∈ demoState.placedWordsList → (checkWordInGrid w demoState.grid 3).1 = true :=
  ⟨by decide, rfl, by decide,
    populateGrid_then_checkWordInGrid demoRand 2 catGrid 3 demoWords 3 2 3 demoState
      (by decide) rfl⟩

/-- C18. Consuming one placed word can destroy another: the example run
places `cat` at (0, 0) going right and `tag` at (0, 2) going down, which share
cell (0, 2); both are found in the returned grid, and once `cat` has been
found and its span overwritten with `'*'`, `tag` is no longer found. -/
theorem checkWordInGrid_destroys_crossing_word :
    populateGrid demoRand 2 catGrid 3 demoWords 3 2 3 = .ok demoState ∧
    demoState.placedWordsList = ["cat".toList, "tag".toList] ∧
    demoState.placements.map (fun p => (p.word, p.row, p.col, p.direction)) =
      [("cat".toList, 0, 0, 0), ("tag".toList, 0, 2, 2)] ∧
    spanCell 0 0 0 2 = spanCell 2 0 2 0 ∧
    (checkWordInGrid "tag".toList demoState.grid 3).1 = true ∧
    (checkWordInGrid "cat".toList demoState.grid 3).1 = true ∧
    (∀ k, k < 3 →
      (checkWordInGrid "cat".toList demoState.grid 3).2 (spanCell 0 0 0 k).1
        (spanCell 0 0 0 k).2 = consumed) ∧
    (checkWordInGrid "tag".toList (checkWordInGrid "cat".toList demoState.grid 3).2 3).1 =
      false :=
  ⟨rfl, by decide, by decide, by decide, by decide, by decide, by decide, by decide⟩

theorem guessStep_rejected (dictionary : WordArray) (dictionarySize gridSize wordLength : Nat)
    (guess : Word) (g : GuessState) (hlen : guess.length = wordLength)
    (hnew : g.guessedWords.any (fun w => w == guess) = false)
    (hfound : (checkWordInGrid guess g.grid gridSize).1 = true)
    (hinvalid : isValidWord guess dictionary dictionarySize = false) :
    guessStep dictionary dictionarySize gridSize wordLength guess g =
      { g with
        grid := (checkWordInGrid guess g.grid gridSize).2
        totalChances := g.totalChances - 1 } := by
  unfold guessStep
  rw [if_neg (by simpa using hlen), hnew, hfound, hinvalid]
  simp

/-- C19. A rejected guess is not atomic. Whenever the search succeeds and the
dictionary lookup fails, the guess step keeps the grid marked by the search,
takes one chance and leaves the successful guesses, the guessed words and the
score as they were. With the guess `CAT`, a grid holding `cat` and the
dictionary `["cat"]` this happens: the cells of `cat` hold `'*'` afterwards
and `cat` itself can no longer be found. -/
theorem guessStep_rejected_guess_consumes_word :
    (∀ (dictionary : WordArray) (dictionarySize gridSize wordLength : Nat) (guess : Word)
        (g : GuessState),
      guess.length = wordLength → g.guessedWords.any (fun w => w == guess) = false →
      (checkWordInGrid guess g.grid gridSize).1 = true →
      isValidWord guess dictionary dictionarySize = false →
      guessStep dictionary dictionarySize gridSize wordLength guess g =
        { g with
          grid := (checkWordInGrid guess g.grid gridSize).2
          totalChances := g.totalChances - 1 }) ∧
    (checkWordInGrid "CAT".toList catGrid 3).1 = true ∧
    isValidWord "CAT".toList (arrayOf ["cat".toList]) 1 = false ∧
    isValidWord "cat".toList (arrayOf ["cat".toList]) 1 = true ∧
    (checkWordInGrid "cat".toList catGrid 3).1 = true ∧
    (∀ k : Nat, k < 3 →
      (guessStep (arrayOf ["cat".toList]) 1 3 3 "CAT".toList catGuessState).grid 0 (k : Int) =
        consumed) ∧
    (guessStep (arrayOf ["cat".toList]) 1 3 3 "CAT".toList catGuessState).successfulGuesses =
      0 ∧
    (guessStep (arrayOf ["cat".toList]) 1 3 3 "CAT".toList catGuessState).score = 0 ∧
    (guessStep (arrayOf ["cat".toList]) 1 3 3 "CAT".toList catGuessState).guessedWords = [] ∧
    (guessStep (arrayOf ["cat".toList]) 1 3 3 "CAT".toList catGuessState).totalChances = 4 ∧
    (checkWordInGrid "cat".toList
      (guessStep (arrayOf ["cat".toList]) 1 3 3 "CAT".toList catGuessState).grid 3).1 = false :=
  ⟨guessStep_rejected, by decide, by decide, by decide, by decide, by decide, by decide,
    by decide, by decide, by decide, by decide⟩

/-! ## The end-to-end scenario -/

theorem placeLoop_of_cond_false (rand : Nat → Nat) (words : List Word)
    (totalWords gridSize count len fuel : Nat) (s : PlaceState)
    (hc : loopCond count s = false) :
    placeLoop rand words totalWords gridSize count len fuel s = .ok s := by
  cases fuel with
  | zero =>
    unfold placeLoop
    rw [hc]
    rfl
  | succ fuel =>
    unfold placeLoop
    rw [hc]
    rfl

theorem loopBody_attempt (rand : Nat → Nat) (words : List Word)
    (totalWords gridSize len : Nat) (s : PlaceState)
    (hpos : 0 < totalWords) (hle : totalWords ≤ words.length) (hsize : 0 < gridSize)
    (hall : ∀ w, w ∈ words → w.length = len) (hempty : s.placedWordsList = []) :
    ∃ s', loopBody rand words totalWords gridSize len s = .ok s' ∧
      (s'.placedWords = s.placedWords + 1 ∨
        (s'.placedWordsList = [] ∧ s'.placedWords = s.placedWords ∧
          s'.maxAttempts = s.maxAttempts - 1)) := by
  have hidx : rand s.draws % totalWords < words.length :=
    Nat.lt_of_lt_of_le (Nat.mod_lt _ hpos) hle
  unfold loopBody
  rw [if_neg (by omega), List.getElem?_eq_getElem hidx]
  simp only
  rw [if_neg (by simpa using hall _ (List.getElem_mem hidx)), hempty]
  simp only [List.any_nil, Bool.false_eq_true, if_false]
  rw [if_neg (by omega)]
  split
  · rw [if_neg (by simp [MAX_WORDS])]
    exact ⟨_, rfl, Or.inl rfl⟩
  · exact ⟨_, rfl, Or.inr ⟨rfl, rfl, rfl⟩⟩

theorem placeLoop_single_returns (rand : Nat → Nat) (words : List Word)
    (totalWords gridSize len : Nat)
    (hpos : 0 < totalWords) (hle : totalWords ≤ words.length) (hsize : 0 < gridSize)
    (hall : ∀ w, w ∈ words → w.length = len) (fuel : Nat) (s : PlaceState)
    (hempty : s.placedWordsList = []) (hfuel : s.maxAttempts ≤ fuel) :
    ∃ s', placeLoop rand words totalWords gridSize 1 len fuel s = .ok s' := by
  induction fuel generalizing s with
  | zero =>
    refine ⟨s, placeLoop_of_cond_false rand words totalWords gridSize 1 len 0 s ?_⟩
    simp only [loopCond, Bool.and_eq_false_iff, decide_eq_false_iff_not]
    omega
  | succ fuel ih =>
    cases hc : loopCond 1 s with
    | false =>
      exact ⟨s, placeLoop_of_cond_false rand words totalWords gridSize 1 len _ s hc⟩
    | true =>
      obtain ⟨s1, hbody, hcase⟩ :=
        loopBody_attempt rand words totalWords gridSize len s hpos hle hsize hall hempty
      unfold placeLoop
      rw [hc, if_pos rfl, hbody]
      simp only
      rcases hcase with hplaced | ⟨he, _, hm⟩
      · refine ⟨s1, placeLoop_of_cond_false rand words totalWords gridSize 1 len fuel s1 ?_⟩
        simp only [loopCond, Bool.and_eq_false_iff, decide_eq_false_iff_not]
        omega
      · exact ih s1 he (by omega)

theorem populateGrid_single_returns (rand : Nat → Nat) (grid : Grid) (words : List Word)
    (totalWords gridSize len : Nat)
    (hpos : 0 < totalWords) (hle : totalWords ≤ words.length) (hsize : 0 < gridSize)
    (hall : ∀ w, w ∈ words → w.length = len) :
    ∃ s, populateGrid rand 100 grid gridSize words totalWords 1 len = .ok s := by
  obtain ⟨s0, hs0⟩ := placeLoop_single_returns rand words totalWords gridSize len hpos hle
    hsize hall 100 (initState grid gridSize 1) rfl (by simp [initState])
  unfold populateGrid
  rw [hs0]
  exact ⟨_, rfl⟩

/-- Counterexample to C11 as stated: when every draw is 4, each of the 100
attempts starts `dog` at (4, 4) going down-right and leaves the grid, so no
word is placed, every cell is filled with `e`, and `checkWordInGrid` returns
`false` for each of `cat`, `dog` and `owl`. -/
theorem populateGrid_scenario_no_word_found :
    (populateGrid (fun _ => 4) 100 catGrid 5 scenarioWords 3 1 3).toOption.map
      (fun s => (s.placedWordsList, (checkWordInGrid "cat".toList s.grid 5).1,
        (checkWordInGrid "dog".toList s.grid 5).1,
        (checkWordInGrid "owl".toList s.grid 5).1)) =
    some ([], false, false, false) := by
  decide!

/-! ## What the placement writes -/

theorem foldl_preserve_mem {σ α : Type} (f : σ → α → σ) (P : σ → Prop) (l : List α)
    (hp : ∀ s y, y ∈ l → P s → P (f s y)) (init : σ) (h : P init) :
    P (l.foldl f init) := by
  induction l generalizing init with
  | nil => exact h
  | cons y rest ih =>
    exact ih (fun s z hz hs => hp s z (List.mem_cons_of_mem y hz) hs) (f init y)
      (hp init y (List.mem_cons_self y rest) h)

theorem setCell_other (g : Grid) (gridSize i j : Nat) (ch : Char) (a b : Int)
    (hi : i < gridSize) (hj : j < gridSize) (hout : inGrid gridSize a b = false) :
    setCell g i j ch a b = g a b := by
  have hne : ¬ (a = (i : Int) ∧ b = (j : Int)) := by
    rintro ⟨ha, hb⟩
    have hin : inGrid gridSize a b = true := by
      rw [inGrid_iff]
      omega
    rw [hin] at hout
    exact Bool.noConfusion hout
  simp only [setCell, if_neg hne]

theorem blankGrid_outside (grid : Grid) (gridSize : Nat) (a b : Int)
    (hout : inGrid gridSize a b = false) : blankGrid grid gridSize a b = grid a b := by
  unfold blankGrid
  refine foldl_preserve_mem _ (fun g : Grid => g a b = grid a b) (List.range gridSize) ?_
    grid rfl
  intro g i hi hg
  refine foldl_preserve_mem _ (fun g : Grid => g a b = grid a b) (List.range gridSize) ?_
    g hg
  intro g' j hj hg'
  rw [setCell_other g' gridSize i j blank a b (List.mem_range.1 hi) (List.mem_range.1 hj) hout]
  exact hg'

theorem fillGrid_outside (rand : Nat → Nat) (gridSize : Nat) (g0 : Grid) (n : Nat)
    (a b : Int) (hout : inGrid gridSize a b = false) :
    (fillGrid rand gridSize (g0, n)).1 a b = g0 a b := by
  unfold fillGrid
  refine foldl_preserve_mem _ (fun st : Grid × Nat => st.1 a b = g0 a b)
    (List.range gridSize) ?_ (g0, n) rfl
  intro st i hi hst
  refine foldl_preserve_mem _ (fun st : Grid × Nat => st.1 a b = g0 a b)
    (List.range gridSize) ?_ st hst
  intro st' j hj hst'
  unfold fillCell
  split
  · simp only
    rw [setCell_other st'.1 gridSize i j _ a b (List.mem_range.1 hi) (List.mem_range.1 hj)
      hout]
    exact hst'
  · exact hst'

theorem loopBody_writes (rand : Nat → Nat) (words : List Word)
    (totalWords gridSize len : Nat) (st st' : PlaceState)
    (h : loopBody rand words totalWords gridSize len st = .ok st') :
    (st'.grid = st.grid ∧ st'.placements = st.placements ∧
      st'.placedWordsList = st.placedWordsList) ∨
    ∃ p, st'.placements = st.placements ++ [p] ∧
      st'.placedWordsList = st.placedWordsList ++ [p.word] ∧
      st'.grid = writeWord st.grid p.word p.row p.col p.direction len ∧
      p.direction < 8 ∧
      (∀ k, k < len →
        inGrid gridSize (spanCell p.direction p.row p.col k).1
          (spanCell p.direction p.row p.col k).2 = true ∧
        st'.grid (spanCell p.direction p.row p.col k).1
          (spanCell p.direction p.row p.col k).2 = charAt p.word k) ∧
      ∀ a b, ¬ Covers p.direction p.row p.col len a b → st'.grid a b = st.grid a b := by
  rcases loopBody_ok rand words totalWords gridSize len st st' h with
    ⟨hg, _, hl, hp⟩ | ⟨word, _, _, _, hcan, hg, _, hl, hp⟩
  · exact Or.inl ⟨hg, hp, hl⟩
  · have hd : rand (st.draws + 3) % 8 < 8 := Nat.mod_lt _ (by omega)
    refine Or.inr ⟨⟨word, _, _, _⟩, hp, hl, hg, hd, ?_, ?_⟩
    · intro k hk
      refine ⟨((canPlace_iff _ _ _ _ _ _ _ hd).1 hcan k hk).1, ?_⟩
      rw [hg]
      exact writeWord_on_span st.grid word _ _ _ len k hd hk
    · intro a b hcov
      rw [hg]
      exact writeWord_off_span st.grid word _ _ _ len a b hd hcov

theorem placeLoop_untouched (rand : Nat → Nat) (fuel : Nat) (grid : Grid) (gridSize : Nat)
    (words : List Word) (totalWords count len : Nat) (s0 : PlaceState)
    (h : placeLoop rand words totalWords gridSize count len fuel
      (initState grid gridSize count) = .ok s0) :
    ∀ a b, (∀ p, p ∈ s0.placements → ¬ Covers p.direction p.row p.col len a b) →
      s0.grid a b = blankGrid grid gridSize a b := by
  refine placeLoop_induct rand words totalWords gridSize count len
    (fun st => ∀ a b, (∀ p, p ∈ st.placements → ¬ Covers p.direction p.row p.col len a b) →
      st.grid a b = blankGrid grid gridSize a b)
    ?_ fuel _ s0 (fun a b _ => rfl) h
  intro st st' _ hst hbody a b hcov
  rcases loopBody_writes rand words totalWords gridSize len st st' hbody with
    ⟨hg, hp, _⟩ | ⟨p, hp, _, _, _, _, hoff⟩
  · rw [hg]
    exact hst a b (fun q hq => hcov q (by rw [hp]; exact hq))
  · rw [hoff a b (hcov p (by rw [hp]; simp))]
    exact hst a b (fun q hq => hcov q (by rw [hp]; exact List.mem_append_left _ hq))

theorem populateGrid_outside (rand : Nat → Nat) (fuel : Nat) (grid : Grid) (gridSize : Nat)
    (words : List Word) (totalWords count len : Nat) (s : PlaceState)
    (h : populateGrid rand fuel grid gridSize words totalWords count len = .ok s)
    (a b : Int) (hout : inGrid gridSize a b = false) : s.grid a b = grid a b := by
  obtain ⟨s0, hs0, hg, _, _, hp⟩ :=
    populateGrid_ok rand fuel grid gridSize words totalWords count len s h
  have hinv := placeLoop_inv rand fuel grid gridSize words totalWords count len s0 hs0
  have hun := placeLoop_untouched rand fuel grid gridSize words totalWords count len s0 hs0
  rw [hg, fillGrid_outside rand gridSize s0.grid s0.draws a b hout, hun a b ?_,
    blankGrid_outside grid gridSize a b hout]
  rintro p hpm ⟨k, hk, hcell⟩
  have hin := (hinv.in_bounds p hpm).2 k hk
  rw [hcell] at hin
  rw [hin] at hout
  exact Bool.noConfusion hout

/-- C8. When `populateGrid` returns on a grid of size `gridSize`:
every placed word has its cells `(row + k*dr, col + k*dc)`,
`k < targetWordLength`, inside `[0, gridSize) x [0, gridSize)`; the writing
loop touches no other cell; an iteration of the placement loop whose drawn
span has a cell outside the grid writes nothing and records nothing; every
iteration either leaves the grid and the records alone or records one
placement and writes exactly its span, character by character; at the exit of
the placement loop every cell off the recorded spans is as the clearing loop
left it; and no cell outside the grid differs from the grid before the call. -/
theorem populateGrid_spans_in_bounds (rand : Nat → Nat) (fuel : Nat) (grid : Grid)
    (gridSize : Nat) (words : List Word) (totalWords count len : Nat) (s : PlaceState)
    (h : populateGrid rand fuel grid gridSize words totalWords count len = .ok s) :
    (∀ p, p ∈ s.placements → p.direction < 8 ∧ ∀ k, k < len →
      0 ≤ (spanCell p.direction p.row p.col k).1 ∧
      (spanCell p.direction p.row p.col k).1 < gridSize ∧
      0 ≤ (spanCell p.direction p.row p.col k).2 ∧
      (spanCell p.direction p.row p.col k).2 < gridSize) ∧
    (∀ (g : Grid) (word : Word) (row col : Int) (direction : Nat) (a b : Int),
      direction < 8 → ¬ Covers direction row col len a b →
      writeWord g word row col direction len a b = g a b) ∧
    (∀ st st', loopBody rand words totalWords gridSize len st = .ok st' →
      (∃ k, k < len ∧
        inGrid gridSize
          (spanCell (rand (st.draws + 3) % 8) ((rand (st.draws + 1) % gridSize : Nat) : Int)
            ((rand (st.draws + 2) % gridSize : Nat) : Int) k).1
          (spanCell (rand (st.draws + 3) % 8) ((rand (st.draws + 1) % gridSize : Nat) : Int)
            ((rand (st.draws + 2) % gridSize : Nat) : Int) k).2 = false) →
      st'.grid = st.grid ∧ st'.placements = st.placements ∧
        st'.placedWordsList = st.placedWordsList) ∧
    (∀ st st', loopBody rand words totalWords gridSize len st = .ok st' →
      (st'.grid = st.grid ∧ st'.placements = st.placements ∧
        st'.placedWordsList = st.placedWordsList) ∨
      ∃ p, st'.placements = st.placements ++ [p] ∧
        st'.placedWordsList = st.placedWordsList ++ [p.word] ∧
        st'.grid = writeWord st.grid p.word p.row p.col p.direction len ∧
        p.direction < 8 ∧
        (∀ k, k < len →
          inGrid gridSize (spanCell p.direction p.row p.col k).1
            (spanCell p.direction p.row p.col k).2 = true ∧
          st'.grid (spanCell p.direction p.row p.col k).1
            (spanCell p.direction p.row p.col k).2 = charAt p.word k) ∧
        ∀ a b, ¬ Covers p.direction p.row p.col len a b → st'.grid a b = st.grid a b) ∧
    (∃ s0, placeLoop rand words totalWords gridSize count len fuel
        (initState grid gridSize count) = .ok s0 ∧
      s.placements = s0.placements ∧
      s.grid = (fillGrid rand gridSize (s0.grid, s0.draws)).1 ∧
      ∀ a b, (∀ p, p ∈ s.placements → ¬ Covers p.direction p.row p.col len a b) →
        s0.grid a b = blankGrid grid gridSize a b) ∧
    (∀ a b, inGrid gridSize a b = false → s.grid a b = grid a b) := by
  obtain ⟨_, _, _, _, hb⟩ :=
    populateGrid_inv rand fuel grid gridSize words totalWords count len s h
  refine ⟨?_, ?_, ?_, ?_, ?_, ?_⟩
  · intro p hp
    refine ⟨(hb p hp).1, fun k hk => ?_⟩
    exact (inGrid_iff gridSize _ _).1 ((hb p hp).2 k hk)
  · intro g word row col direction a b hd hcov
    exact writeWord_off_span g word row col direction len a b hd hcov
  · intro st st' hbody hout
    exact loopBody_out_of_bounds rand words totalWords gridSize len st st' hbody hout
  · intro st st' hbody
    exact loopBody_writes rand words totalWords gridSize len st st' hbody
  · obtain ⟨s0, hs0, hg, _, _, hp⟩ :=
      populateGrid_ok rand fuel grid gridSize words totalWords count len s h
    refine ⟨s0, hs0, hp, hg, ?_⟩
    intro a b hcov
    exact placeLoop_untouched rand fuel grid gridSize words totalWords count len s0 hs0 a b
      (fun p hpm => hcov p (by rw [hp]; exact hpm))
  · intro a b hout
    exact populateGrid_outside rand fuel grid gridSize words totalWords count len s h a b hout

/-- Witness for C8: the example run, an attempt of `dog` that leaves the
grid, and a cell outside the grid. -/
theorem populateGrid_spans_in_bounds_witness :
    populateGrid demoRand 2 catGrid 3 demoWords 3 2 3 = .ok demoState ∧
    demoState.placements.length = 2 ∧
    (∀ p, p ∈ demoState.placements → p.direction < 8 ∧ ∀ k, k < 3 →
      0 ≤ (spanCell p.direction p.row p.col k).1 ∧
      (spanCell p.direction p.row p.col k).1 < (3 : Nat) ∧
      0 ≤ (spanCell p.direction p.row p.col k).2 ∧
      (spanCell p.direction p.row p.col k).2 < (3 : Nat)) ∧
    loopBody demoRand demoWords 3 3 3 outsideState =
      .ok { outsideState with maxAttempts := 4, draws := 12 } ∧
    ({ outsideState with maxAttempts := 4, draws := 12 } : PlaceState).grid =
      outsideState.grid ∧
    inGrid 3 0 3 = false ∧
    demoState.grid 0 3 = catGrid 0 3 :=
  ⟨rfl, by decide,
    (populateGrid_spans_in_bounds demoRand 2 catGrid 3 demoWords 3 2 3 demoState rfl).1,
    rfl,
    ((populateGrid_spans_in_bounds demoRand 2 catGrid 3 demoWords 3 2 3 demoState rfl).2.2.1
      outsideState { outsideState with maxAttempts := 4, draws := 12 } rfl
      ⟨1, by decide, by decide⟩).1,
    by decide,
    (populateGrid_spans_in_bounds demoRand 2 catGrid 3 demoWords 3 2 3 demoState
      rfl).2.2.2.2.2 0 3 (by decide)⟩

/-! ## The first attempt that fits -/

theorem attemptFits_iff (rand : Nat → Nat) (gridSize len d : Nat) :
    attemptFits rand gridSize len d = true ↔
      ∀ k, k < len →
        inGrid gridSize
          (spanCell (rand (d + 3) % 8) ((rand (d + 1) % gridSize : Nat) : Int)
            ((rand (d + 2) % gridSize : Nat) : Int) k).1
          (spanCell (rand (d + 3) % 8) ((rand (d + 1) % gridSize : Nat) : Int)
            ((rand (d + 2) % gridSize : Nat) : Int) k).2 = true := by
  unfold attemptFits
  simp only [List.all_eq_true, List.mem_range]

theorem canPlace_on_blank (rand : Nat → Nat) (g : Grid) (gridSize len d : Nat) (word : Word)
    (hblank : ∀ a b, inGrid gridSize a b = true → g a b = blank) :
    canPlace g gridSize word ((rand (d + 1) % gridSize : Nat) : Int)
      ((rand (d + 2) % gridSize : Nat) : Int) (rand (d + 3) % 8) len =
      attemptFits rand gridSize len d := by
  have hd : rand (d + 3) % 8 < 8 := Nat.mod_lt _ (by omega)
  rw [Bool.eq_iff_iff, canPlace_iff _ _ _ _ _ _ _ hd, attemptFits_iff]
  constructor
  · intro h k hk
    exact (h k hk).1
  · intro h k hk
    exact ⟨h k hk, Or.inl (hblank _ _ (h k hk))⟩

theorem loopBody_on_blank (rand : Nat → Nat) (words : List Word)
    (totalWords gridSize len : Nat) (s : PlaceState)
    (hpos : 0 < totalWords) (hle : totalWords ≤ words.length) (hsize : 0 < gridSize)
    (hall : ∀ w, w ∈ words → w.length = len) (hempty : s.placedWordsList = [])
    (hblank : ∀ a b, inGrid gridSize a b = true → s.grid a b = blank) :
    ∃ s', loopBody rand words totalWords gridSize len s = .ok s' ∧
      (attemptFits rand gridSize len s.draws = true →
        s'.placedWords = s.placedWords + 1 ∧
        s'.placedWordsList = [words.getD (rand s.draws % totalWords) []]) ∧
      (attemptFits rand gridSize len s.draws = false →
        s'.placedWordsList = [] ∧ s'.placedWords = s.placedWords ∧
        s'.maxAttempts = s.maxAttempts - 1 ∧ s'.draws = s.draws + 4 ∧ s'.grid = s.grid) := by
  have hidx : rand s.draws % totalWords < words.length :=
    Nat.lt_of_lt_of_le (Nat.mod_lt _ hpos) hle
  have hget : words.getD (rand s.draws % totalWords) [] = words[rand s.draws % totalWords] := by
    rw [List.getD_eq_getElem?_getD, List.getElem?_eq_getElem hidx]
    rfl
  unfold loopBody
  rw [if_neg (by omega), List.getElem?_eq_getElem hidx]
  simp only
  rw [if_neg (by simpa using hall _ (List.getElem_mem hidx)), hempty]
  simp only [List.any_nil, Bool.false_eq_true, if_false]
  rw [if_neg (by omega)]
  simp only [NUM_DIRECTIONS]
  rw [canPlace_on_blank rand s.grid gridSize len s.draws _ hblank]
  cases hfit : attemptFits rand gridSize len s.draws with
  | true =>
    rw [if_pos rfl, if_neg (by simp [MAX_WORDS])]
    refine ⟨_, rfl, fun _ => ⟨rfl, ?_⟩, fun hf => absurd hf (by simp)⟩
    rw [hget]
    rfl
  | false =>
    rw [if_neg (by simp)]
    exact ⟨_, rfl, fun hf => absurd hf (by simp), fun _ => ⟨rfl, rfl, rfl, rfl, rfl⟩⟩

theorem placeLoop_first_fit (rand : Nat → Nat) (words : List Word)
    (totalWords gridSize len : Nat)
    (hpos : 0 < totalWords) (hle : totalWords ≤ words.length) (hsize : 0 < gridSize)
    (hall : ∀ w, w ∈ words → w.length = len) (fuel : Nat) (s : PlaceState)
    (hempty : s.placedWordsList = []) (hzero : s.placedWords = 0)
    (hblank : ∀ a b, inGrid gridSize a b = true → s.grid a b = blank)
    (hfuel : s.maxAttempts ≤ fuel) :
    ∃ s', placeLoop rand words totalWords gridSize 1 len fuel s = .ok s' ∧
      ((∀ t, t < s.maxAttempts → attemptFits rand gridSize len (s.draws + 4 * t) = false) →
        s'.placedWordsList = []) ∧
      (∀ t, t < s.maxAttempts → attemptFits rand gridSize len (s.draws + 4 * t) = true →
        (∀ t', t' < t → attemptFits rand gridSize len (s.draws + 4 * t') = false) →
        s'.placedWordsList = [words.getD (rand (s.draws + 4 * t) % totalWords) []]) := by
  induction fuel generalizing s with
  | zero =>
    have hm : s.maxAttempts = 0 := by omega
    refine ⟨s, placeLoop_of_cond_false rand words totalWords gridSize 1 len 0 s ?_,
      fun _ => hempty, ?_⟩
    · simp only [loopCond, Bool.and_eq_false_iff, decide_eq_false_iff_not]
      omega
    · intro t ht
      omega
  | succ fuel ih =>
    rcases Nat.eq_zero_or_pos s.maxAttempts with hm | hm
    · refine ⟨s, placeLoop_of_cond_false rand words totalWords gridSize 1 len _ s ?_,
        fun _ => hempty, ?_⟩
      · simp only [loopCond, Bool.and_eq_false_iff, decide_eq_false_iff_not]
        omega
      · intro t ht
        omega
    · have hc : loopCond 1 s = true := by
        simp only [loopCond, Bool.and_eq_true, decide_eq_true_eq]
        omega
      obtain ⟨s1, hbody, hfit, hmiss⟩ :=
        loopBody_on_blank rand words totalWords gridSize len s hpos hle hsize hall hempty hblank
      unfold placeLoop
      rw [hc, if_pos rfl, hbody]
      simp only
      cases h0 : attemptFits rand gridSize len s.draws with
      | true =>
        obtain ⟨hpw, hlist⟩ := hfit h0
        refine ⟨s1, placeLoop_of_cond_false rand words totalWords gridSize 1 len fuel s1 ?_,
          ?_, ?_⟩
        · simp only [loopCond, Bool.and_eq_false_iff, decide_eq_false_iff_not]
          omega
        · intro hnone
          have := hnone 0 hm
          rw [Nat.mul_zero, Nat.add_zero, h0] at this
          exact absurd this (by simp)
        · intro t _ _ hfirst
          rcases Nat.eq_zero_or_pos t with ht0 | htpos
          · subst ht0
            rw [Nat.mul_zero, Nat.add_zero]
            exact hlist
          · have := hfirst 0 htpos
            rw [Nat.mul_zero, Nat.add_zero, h0] at this
            exact absurd this (by simp)
      | false =>
        obtain ⟨hl1, hpw1, hm1, hd1, hg1⟩ := hmiss h0
        obtain ⟨s', hrun, hnone', hfirst'⟩ := ih s1 hl1 (by omega)
          (by rw [hg1]; exact hblank) (by omega)
        refine ⟨s', hrun, ?_, ?_⟩
        · intro hnone
          apply hnone'
          intro t ht
          have := hnone (t + 1) (by omega)
          rw [hd1]
          rw [show s.draws + 4 + 4 * t = s.draws + 4 * (t + 1) by omega]
          exact this
        · intro t ht hfit_t hbefore
          rcases Nat.eq_zero_or_pos t with ht0 | htpos
          · subst ht0
            rw [Nat.mul_zero, Nat.add_zero, h0] at hfit_t
            exact absurd hfit_t (by simp)
          · obtain ⟨t0, rfl⟩ : ∃ t0, t = t0 + 1 := ⟨t - 1, by omega⟩
            have hshift : ∀ u, s1.draws + 4 * u = s.draws + 4 * (u + 1) := by
              intro u
              rw [hd1]
              omega
            have := hfirst' t0 (by omega) (by rw [hshift]; exact hfit_t)
              (fun t' ht' => by rw [hshift]; exact hbefore (t' + 1) (by omega))
            rw [hshift] at this
            exact this

theorem populateGrid_first_fit (rand : Nat → Nat) (grid : Grid) (words : List Word)
    (totalWords gridSize len : Nat)
    (hpos : 0 < totalWords) (hle : totalWords ≤ words.length) (hsize : 0 < gridSize)
    (hall : ∀ w, w ∈ words → w.length = len) :
    ∃ s, populateGrid rand 100 grid gridSize words totalWords 1 len = .ok s ∧
      ((∀ t, t < 100 → attemptFits rand gridSize len (4 * t) = false) →
        s.placedWordsList = []) ∧
      (∀ t, t < 100 → attemptFits rand gridSize len (4 * t) = true →
        (∀ t', t' < t → attemptFits rand gridSize len (4 * t') = false) →
        s.placedWordsList = [words.getD (rand (4 * t) % totalWords) []]) := by
  obtain ⟨s0, hs0, hnone, hfirst⟩ := placeLoop_first_fit rand words totalWords gridSize len
    hpos hle hsize hall 100 (initState grid gridSize 1) rfl rfl
    (fun a b hab => blankGrid_apply grid gridSize a b hab) (by simp [initState])
  have hzero : ∀ t, (initState grid gridSize 1).draws + 4 * t = 4 * t := by
    intro t
    simp [initState]
  have hmax : (initState grid gridSize 1).maxAttempts = 100 := by simp [initState]
  simp only [hzero, hmax] at hnone hfirst
  unfold populateGrid
  rw [hs0]
  exact ⟨_, rfl, hnone, hfirst⟩

/-- Second counterexample to C11 as stated: with the draws `dogFillRand` the
first attempt places `cat` on row 0 and the random fill then writes `dog` on
row 1, so `checkWordInGrid` returns `true` for two of the three words. -/
theorem populateGrid_scenario_fill_spells_dog :
    (populateGrid dogFillRand 100 catGrid 5 scenarioWords 3 1 3).toOption.map
      (fun s => (s.placedWordsList, (checkWordInGrid "cat".toList s.grid 5).1,
        (checkWordInGrid "dog".toList s.grid 5).1,
        (checkWordInGrid "owl".toList s.grid 5).1)) =
    some (["cat".toList], true, true, false) := by
  decide!

/-- C11, amended. For the dictionary `["cat", "dog", "owl"]`, grid size 5, one
word of length 3 requested and every sequence of draws, `populateGrid` returns
within 100 iterations and every cell of the grid holds a lowercase letter.
When none of the 100 attempts fits in the grid no word is placed; otherwise
the word drawn at the first attempt that fits is the one word placed, and
`checkWordInGrid` returns `true` for it on the returned grid. -/
theorem populateGrid_scenario (rand : Nat → Nat) (grid : Grid) :
    ∃ s, populateGrid rand 100 grid 5 scenarioWords 3 1 3 = .ok s ∧
      s.placedWordsList.length ≤ 1 ∧
      (∀ w, w ∈ s.placedWordsList →
        w ∈ scenarioWords ∧ (checkWordInGrid w s.grid 5).1 = true) ∧
      (∀ a b, inGrid 5 a b = true → (s.grid a b).isLower = true) ∧
      ((∀ t, t < 100 → attemptFits rand 5 3 (4 * t) = false) → s.placedWordsList = []) ∧
      (∀ t, t < 100 → attemptFits rand 5 3 (4 * t) = true →
        (∀ t', t' < t → attemptFits rand 5 3 (4 * t') = false) →
        s.placedWordsList = [scenarioWords.getD (rand (4 * t) % 3) []] ∧
        (checkWordInGrid (scenarioWords.getD (rand (4 * t) % 3) []) s.grid 5).1 = true) := by
  obtain ⟨s, hs, hnone, hfirst⟩ := populateGrid_first_fit rand grid scenarioWords 3 5 3
    (by decide) (by decide) (by decide) (by decide)
  obtain ⟨_, _, hdict, hcount, _⟩ := populateGrid_inv rand 100 grid 5 scenarioWords 3 1 3 s hs
  have hfound : ∀ w, w ∈ s.placedWordsList → (checkWordInGrid w s.grid 5).1 = true :=
    fun w hw =>
      populateGrid_round_trip rand 100 grid 5 scenarioWords 3 1 3 s (by decide) hs w hw
  refine ⟨s, hs, hcount, ?_, ?_, hnone, ?_⟩
  · intro w hw
    exact ⟨(hdict w hw).1, hfound w hw⟩
  · intro a b hab
    exact populateGrid_lowercase rand 100 grid 5 scenarioWords 3 1 3 s (by decide) hs a b hab
  · intro t ht hfit hbefore
    have hl := hfirst t ht hfit hbefore
    refine ⟨hl, hfound _ ?_⟩
    rw [hl]
    exact List.mem_singleton.2 rfl

/-- Witness for C11 (amended): with the draws `owlRand` the first attempt puts
`owl` at (1, 1) going right; it is the word placed and it is found. -/
theorem populateGrid_scenario_witness :
    attemptFits owlRand 5 3 (4 * 0) = true ∧
    ∃ s, populateGrid owlRand 100 catGrid 5 scenarioWords 3 1 3 = .ok s ∧
      s.placedWordsList = ["owl".toList] ∧
      (checkWordInGrid "owl".toList s.grid 5).1 = true := by
  refine ⟨by decide, ?_⟩
  obtain ⟨s, hs, _, _, _, _, hfirst⟩ := populateGrid_scenario owlRand catGrid
  have h0 := hfirst 0 (by decide) (by decide) (fun t' ht' => absurd ht' (by omega))
  have hw : scenarioWords.getD (owlRand (4 * 0) % 3) [] = "owl".toList := by decide
  rw [hw] at h0
  exact ⟨s, hs, h0.1, h0.2⟩

end WordGame
